import Mathlib

/-!
# `vanilla/resource.go`: the service-to-service RPC client

A shallow embedding of `Resource.request`, `Resource.handleJWTError`,
`Resource.requestWithRetry`, the four verbs, `LoginAs`, `LoginAsUser` and
`DisableRetry`.

* Package-level variables and process environment are the fields of `Config`.
* Mutable process state (the two login caches, the two metrics counters) and the
  network are the fields of `World`; every operation takes a `World` and returns
  the `World` it leaves behind.
* A Go panic is the result `none`; the `World` returned with it holds the effects
  that happened before the panic.
* Strings are sequences of characters; the only byte searched for is the ASCII
  dot, so byte offsets and character offsets cut a string at the same places.
* `apiUrl` is kept in the two parts `request` concatenates; `Url.text` is the string
  and `rawQueryOf` the query `url.Parse` finds in it.
* Logging calls (`beego.Warn`, `logs.Critical`, `beego.Error`) have no effect on
  the state modelled here and are left out.
* `CronLogin` and `ToJsonString` use none of the state above and are not embedded.
-/

namespace Vanilla

/-! ## Go values -/

/-- A Go `error`: `none` is nil, `some msg` is an error whose message is `msg`. -/
abbrev GoError := Option String

/-- A Go `interface{}` value, as far as the type switch of `request` and the type
assertions on context values tell values apart. A `float64` is carried by the text
that `fmt.Sprintf("%f", v)` prints for it. -/
inductive GoValue where
  | int (i : Int)
  | bool (b : Bool)
  | string (s : String)
  | float64 (rendered : String)
  | other (desc : String)

/-- The type `Map` of the package (`map[string]interface{}`), iterated in list order. -/
abbrev Map := List (String × GoValue)

/-! ## go-simplejson -/

/-- The `data interface{}` held by a `simplejson.Json` after `UnmarshalJSON`.
The decoder runs with `UseNumber`, so a number stays a literal: `int` is a literal
without fraction or exponent, `real` any other number literal. An object is the
decoded Go map, read by first match. -/
inductive Json where
  | null
  | bool (b : Bool)
  | int (i : Int)
  | real (literal : String)
  | str (s : String)
  | arr (items : List Json)
  | obj (fields : List (String × Json))

/-- Smallest `int64`. -/
def minInt64 : Int := -(2 ^ 63)

/-- Largest `int64`. -/
def maxInt64 : Int := 2 ^ 63 - 1

/-- The method `(*Json).Get`: "returns a pointer to a new Json object for key in
its map representation". The pointer is fresh on every path, so it is never nil:
for a missing key, or when the receiver is not an object, it points to a `Json`
holding nil. -/
def Json.Get (j : Json) (key : String) : Option Json :=
  match j with
  | Json.obj fields =>
    match fields.lookup key with
    | some val => some val
    | none => some Json.null
  | _ => some Json.null

/-- The method `(*Json).Int`: a number literal goes through `json.Number.Int64`
(`strconv.ParseInt` base 10, which clamps on range errors and yields 0 on a syntax
error); every other value is 0 with an error. -/
def Json.toInt : Json → Int × GoError
  | Json.int i =>
    if i < minInt64 then (minInt64, some "value out of range")
    else if maxInt64 < i then (maxInt64, some "value out of range")
    else (i, none)
  | Json.real _ => (0, some "invalid syntax")
  | _ => (0, some "invalid value type")

/-- The method `(*Json).String`: the string held, or the empty string with an error. -/
def Json.toStr : Json → String × GoError
  | Json.str s => (s, none)
  | _ => ("", some "type assertion to string failed")

/-- The method `(*Json).MustString` without a default argument: the string held,
or the empty string. -/
def Json.MustString (j : Json) : String :=
  match j.toStr with
  | (s, none) => s
  | (_, some _) => ""

/-! ## The login cache and the metrics counters -/

/-- Modelled from the spec: the package `vanilla/cache` (`NewLRUCache`, `Get`, `Set`,
`DelByValue`) is not among the sources. A cache is the mapping from identity to
the live session token, at most one token per identity. Expiry by TTL and
eviction by capacity are silent and internal to the cache; they are not steps of
the three operations below. -/
abbrev Cache := String → Option String

/-- Modelled from the spec: the cache `NewLRUCache` returns holds no entry. -/
def Cache.empty : Cache := fun _ => none

/-- Modelled from the spec: `get(identity) -> token?` returns the cached token or a miss. -/
def Cache.Get (c : Cache) (key : String) : Option String := c key

/-- Modelled from the spec: `set(identity, token)` inserts or overwrites the entry of
`identity`. -/
def Cache.Set (c : Cache) (key value : String) : Cache :=
  fun k => if k = key then some value else c k

/-- Modelled from the spec: `invalidate_by_value(token)` removes the entry whose token
equals the given value, regardless of identity key. -/
def Cache.DelByValue (c : Cache) (value : String) : Cache :=
  fun k => if c k = some value then none else c k

/-- Modelled from the spec: a counter of the package `metrics` (not among the
sources); `Inc` adds one. -/
def Counter.Inc (n : Nat) : Nat := n + 1

/-! ## net/url and net/http -/

/-- The type `url.Values` (`map[string][]string`), one entry per key. -/
abbrev Values := List (String × List String)

/-- The method `url.Values.Set`: the key now holds exactly the one value. -/
def Values.Set (vs : Values) (key value : String) : Values :=
  (key, [value]) :: vs.filter (fun p => decide (p.1 ≠ key))

/-- The key/value pairs that `url.Values.Encode` writes as `key=value`, one for
every value of every key. -/
def Values.pairs (vs : Values) : List (String × String) :=
  vs.flatMap (fun p => p.2.map (fun v => (p.1, v)))

/-- The string `upperhex` of `net/url`. -/
def upperhex : List Char :=
  ['0', '1', '2', '3', '4', '5', '6', '7', '8', '9', 'A', 'B', 'C', 'D', 'E', 'F']

/-- The function `shouldEscape` of `net/url` in the mode of a query component: only
ASCII letters, digits and `-`, `_`, `.`, `~` are written as they are. -/
def shouldEscape (c : Char) : Bool :=
  !(c.isAlphanum || c = '-' || c = '_' || c = '.' || c = '~')

/-- What `url.QueryEscape` writes for one character: itself, `+` for a space, or
`%XX` for each byte of its UTF-8 encoding. -/
def escapeChar (c : Char) : List Char :=
  if shouldEscape c then
    if c = ' ' then ['+']
    else (String.utf8EncodeChar c).flatMap
      (fun b => ['%', upperhex.getD (b.toNat / 16) '0', upperhex.getD (b.toNat % 16) '0'])
  else [c]

/-- The function `url.QueryEscape`. -/
def QueryEscape (s : String) : String :=
  String.mk (s.data.flatMap escapeChar)

/-- The order in which `url.Values.Encode` sorts keys: byte-wise, which on UTF-8 text
is the order of the code points. -/
def keyLe : List Char → List Char → Bool
  | [], _ => true
  | _ :: _, [] => false
  | a :: as, b :: bs =>
    if a.toNat < b.toNat then true
    else if b.toNat < a.toNat then false
    else keyLe as bs

/-- The method `url.Values.Encode`: the pairs in the order of their keys, each
written `QueryEscape(key)=QueryEscape(value)`, joined by `&`. -/
def Values.Encode (vs : Values) : String :=
  String.mk ([ '&' ].intercalate
    ((Values.pairs (vs.insertionSort (fun a b => keyLe a.1.data b.1.data = true))).map
      (fun kv => (QueryEscape kv.1).data ++ '=' :: (QueryEscape kv.2).data)))

/-- The string `apiUrl` in two parts: `base` is the text written before the `?` that
`request` appends, `query` the `url.Values` whose `Encode()` it appends after it. -/
structure Url where
  base : String
  query : Values

/-- The string `apiUrl` itself, as it is handed to `http.NewRequest`. -/
def Url.text (u : Url) : String :=
  u.base ++ "?" ++ Values.Encode u.query

/-- The `RawQuery` that `url.Parse` reads off a URL string: the fragment is cut off
at the first `#`, and the query is what follows the first `?` of the rest. -/
def rawQueryOf (rawurl : String) : String :=
  String.mk (((rawurl.data.takeWhile (fun c => decide (c ≠ '#'))).dropWhile
    (fun c => decide (c ≠ '?'))).drop 1)

/-- The components of a query string, which `&` separates. -/
def queryComponents (q : String) : List String :=
  (q.data.splitOn '&').map String.mk

/-- A text with neither `#` nor `?` in it. -/
def Plain (s : String) : Prop :=
  '#' ∉ s.data ∧ '?' ∉ s.data

/-- A header value; `upper s` is `strings.ToUpper(s)`. -/
inductive HeaderValue where
  | plain (s : String)
  | upper (s : String)

/-- The type `http.Header`, one entry per key. -/
abbrev Header := List (String × HeaderValue)

/-- The method `http.Header.Set`. -/
def Header.Set (h : Header) (key : String) (value : HeaderValue) : Header :=
  (key, value) :: h.filter (fun p => decide (p.1 ≠ key))

/-- An `*http.Request` as `request` builds it: the HTTP method, the URL, the form
body (`none` for the nil body of a GET) and the headers. -/
structure HttpRequest where
  method : String
  url : Url
  body : Option Values
  header : Header

/-- What `netClient.Do`, `ioutil.ReadAll` and `UnmarshalJSON` make of one request:
`Do` fails, reading the body fails, the body is not JSON, or the body decodes. -/
inductive RoundTrip where
  | doErr (e : String)
  | readErr (e : String)
  | badBody (e : String)
  | goodBody (j : Json)

/-- A tag that `request` sets on the tracing span. -/
inductive SpanTag where
  | spanKindRPCClient
  | httpUrl (u : Url)
  | httpMethod (m : String)

/-- An opentracing span found in the context; `carrier` is what its tracer injects
into the HTTP headers. -/
structure Span where
  carrier : List (String × String)

/-! ## Package state -/

/-- The values `request` reads from `this.Ctx`: `Ctx.Value("jwt")`,
`Ctx.Value(REQUEST_MODE_CTX_KEY)` and `opentracing.SpanFromContext(Ctx)`;
`none` is nil. -/
structure Context where
  jwt : Option GoValue
  requestMode : Option GoValue
  span : Option Span

/-- The struct `Resource`. -/
structure Resource where
  Ctx : Context
  CustomJWTToken : String
  disableRetry : Bool

/-- The struct `ResourceResponse`; `RespData` is the (non-nil) `jsonObj`. -/
structure ResourceResponse where
  RespData : Json

/-- The package-level variables set once by `init()`, the configuration and
environment `request` reads, the constant `REQUEST_HEADER_FORMAT` (declared in
another file of the package), and `http.NewRequest` as the error it returns for a
method and URL string (nil when the request can be built). -/
structure Config where
  _PLATFORM_SECRET : String
  _USER_LOGIN_SECRET : String
  _ENABLE_RESOURCE_LOGIN_CACHE : Bool
  _SERVICE_NAME : String
  API_SERVER_HOST : String
  USE_PEANUT_PURE : String
  REQUEST_HEADER_FORMAT : String
  NewRequest : String → String → GoError

/-- The constant `_RETRY_COUNT`. -/
def _RETRY_COUNT : Nat := 3

/-- The constant `InvalidJwtError`. -/
def InvalidJwtError : String := "jwt:invalid_jwt_token"

/-- The mutable state of the process and the network around it.
`requestCalls`, `built` and `sent` are ghost fields: the number of invocations of
`request`, the arguments of every `http.NewRequest`, and the requests handed to
`netClient.Do`. `transport n req` is what the network answers to `req` when it is
the `n`-th request sent. -/
structure World where
  corpLoginCache : Cache
  userLoginCache : Cache
  errorJwtInCacheCounter : Nat
  resourceRetryCounter : Nat
  requestCalls : Nat
  built : List (String × Url × Option Values)
  sent : List HttpRequest
  spanTags : List SpanTag
  transport : Nat → HttpRequest → RoundTrip

/-- The state `init()` leaves: both caches freshly created, nothing counted. -/
def World.init (transport : Nat → HttpRequest → RoundTrip) : World :=
  { corpLoginCache := Cache.empty
    userLoginCache := Cache.empty
    errorJwtInCacheCounter := 0
    resourceRetryCounter := 0
    requestCalls := 0
    built := []
    sent := []
    spanTags := []
    transport := transport }

/-- The statement `metrics.GetResourceRetryCounter().Inc()`. -/
def World.incRetry (w : World) : World :=
  { w with resourceRetryCounter := Counter.Inc w.resourceRetryCounter }

/-! ## Strings -/

/-- The scan of `strings.LastIndexByte` over the characters from index `i` on:
`found` is the last index seen so far that holds `c`. -/
def lastIndexFrom (c : Char) : List Char → Nat → Int → Int
  | [], _, found => found
  | x :: xs, i, found => lastIndexFrom c xs (i + 1) (if x = c then (i : Int) else found)

/-- The function `strings.LastIndexByte`: the index of the last occurrence of `c`,
or -1. -/
def LastIndexByte (s : String) (c : Char) : Int :=
  lastIndexFrom c s.data 0 (-1)

/-- The slice expression `s[:hi]`; `none` is the run-time panic for an index out
of range. -/
def sliceTo (s : String) (hi : Int) : Option String :=
  if 0 ≤ hi ∧ hi ≤ (s.length : Int) then some (String.mk (s.data.take hi.toNat)) else none

/-- The slice expression `s[lo:]`; `none` is the run-time panic for an index out
of range. -/
def sliceFrom (s : String) (lo : Int) : Option String :=
  if 0 ≤ lo ∧ lo ≤ (s.length : Int) then some (String.mk (s.data.drop lo.toNat)) else none

/-- The type switch of `request` on one parameter value. -/
def formatValue : GoValue → String
  | GoValue.int i => toString i
  | GoValue.bool b => toString b
  | GoValue.string s => s
  | GoValue.float64 rendered => rendered
  | GoValue.other _ => ""

/-- The loop `for k, v := range data` of `request`, setting every parameter in `vs`. -/
def setAll (vs : Values) (data : Map) : Values :=
  data.foldl (fun acc kv => Values.Set acc kv.1 (formatValue kv.2)) vs

/-! ## The operations of `resource.go` -/

/-- The method `ResourceResponse.IsSuccess`; `none` would be the nil dereference of
the pointer `Get` returns. -/
def ResourceResponse.IsSuccess (this : ResourceResponse) : Option Bool :=
  match this.RespData.Get "code" with
  | none => none
  | some code => some (decide (code.toInt.1 = 200))

/-- The method `ResourceResponse.Data`. -/
def ResourceResponse.Data (this : ResourceResponse) : Option Json :=
  this.RespData.Get "data"

/-- The method `Resource.handleJWTError`. -/
def handleJWTError (cfg : Config) (this : Resource) (errCode : String) (w : World) : World :=
  if ¬ cfg._ENABLE_RESOURCE_LOGIN_CACHE then w
  else if errCode ≠ InvalidJwtError then w
  else if this.CustomJWTToken = "" then w
  else
    { w with
      corpLoginCache := w.corpLoginCache.DelByValue this.CustomJWTToken
      userLoginCache := w.userLoginCache.DelByValue this.CustomJWTToken
      errorJwtInCacheCounter := Counter.Inc w.errorJwtInCacheCounter }

/-- Lines 166 to 173 of `request`: the headers set on a request that was built.
`none` is the panic of the type assertion `modeIf.(string)`. -/
def requestHeader (cfg : Config) (this : Resource) (method jwtToken : String) : Option Header :=
  let h0 : Header := if method ≠ "GET" then
      Header.Set [] "Content-Type" (HeaderValue.plain "application/x-www-form-urlencoded")
    else []
  let h1 := Header.Set h0 "AUTHORIZATION" (HeaderValue.plain jwtToken)
  match this.Ctx.requestMode with
  | none => some h1
  | some (GoValue.string mode) => some (Header.Set h1 cfg.REQUEST_HEADER_FORMAT (HeaderValue.upper mode))
  | some _ => none

/-- Lines 188 to 224 of `request`: send `req` and classify the answer. -/
def requestSend (cfg : Config) (this : Resource) (req : HttpRequest) (w : World) :
    Option (Option ResourceResponse × GoError × GoError) × World :=
  let answer := w.transport w.sent.length req
  let w := { w with sent := w.sent ++ [req] }
  match answer with
  | RoundTrip.doErr e => (some (none, some e, some e), w)
  | RoundTrip.readErr e => (some (none, some e, some e), w)
  | RoundTrip.badBody e => (some (none, some e, some e), w)
  | RoundTrip.goodBody jsonObj =>
    let resourceResp : ResourceResponse := { RespData := jsonObj }
    match resourceResp.IsSuccess with
    | none => (none, w)
    | some true => (some (some resourceResp, none, none), w)
    | some false =>
      match jsonObj.Get "errCode" with
      | none => (some (some resourceResp, some "remote_service_error", none), w)
      | some errCode =>
        let w := handleJWTError cfg this errCode.MustString w
        (some (some resourceResp, some errCode.MustString, none), w)

/-- Lines 69 to 79 of `request`: the token sent, the receiver's own or else the
string under `"jwt"` in the context. -/
def jwtTokenOf (this : Resource) : String :=
  if this.CustomJWTToken ≠ "" then this.CustomJWTToken
  else
    match this.Ctx.jwt with
    | some (GoValue.string s) => s
    | _ => ""

/-- Lines 81 to 84 of `request`: the service name that goes into the URL. -/
def targetService (cfg : Config) (service : String) : String :=
  if cfg.USE_PEANUT_PURE = "1" ∧ service = "peanut" then "peanut_pure" else service

/-- Lines 103 to 104 of `request`: the resource cut at its last dot and joined by a
slash; `none` is the panic of a slice expression. -/
def splitResource (resource : String) : Option String :=
  let pos := LastIndexByte resource '.'
  match sliceTo resource pos with
  | none => none
  | some ns =>
    match sliceFrom resource (pos + 1) with
    | none => none
    | some action => some (ns ++ "/" ++ action)

/-- Lines 100 and 108 to 160 of `request`: the arguments of `http.NewRequest`, that
is the HTTP method, `apiUrl` and the form body. -/
def buildRequest (cfg : Config) (method service resource : String) (data : Map) :
    String × Url × Option Values :=
  let params : Values := [("_v", ["1"]), ("__source_service", [cfg._SERVICE_NAME])]
  let base := "http://" ++ cfg.API_SERVER_HOST ++ "/" ++ service ++ "/" ++ resource ++ "/"
  if method = "GET" then
    ("GET", { base := base, query := setAll params data }, none)
  else
    let params :=
      if method = "PUT" then Values.Set params "_method" "put"
      else if method = "DELETE" then Values.Set params "_method" "delete"
      else params
    ("POST", { base := base, query := params }, some (setAll [] data))

/-- Lines 175 to 224 of `request`: tag the span and inject it when there is one,
then send. -/
def requestTraced (cfg : Config) (this : Resource) (method : String)
    (built : String × Url × Option Values) (header : Header) (w : World) :
    Option (Option ResourceResponse × GoError × GoError) × World :=
  match this.Ctx.span with
  | none =>
    requestSend cfg this
      { method := built.1, url := built.2.1, body := built.2.2, header := header } w
  | some span =>
    let w := { w with spanTags := w.spanTags ++
      [SpanTag.spanKindRPCClient, SpanTag.httpUrl built.2.1, SpanTag.httpMethod method] }
    let header := span.carrier.foldl
      (fun h kv => Header.Set h kv.1 (HeaderValue.plain kv.2)) header
    requestSend cfg this
      { method := built.1, url := built.2.1, body := built.2.2, header := header } w

/-- Lines 159 to 224 of `request`: from the call of `http.NewRequest` on. -/
def requestBuilt (cfg : Config) (this : Resource) (method : String)
    (built : String × Url × Option Values) (w : World) :
    Option (Option ResourceResponse × GoError × GoError) × World :=
  let w := { w with built := w.built ++ [built] }
  match cfg.NewRequest built.1 built.2.1.text with
  | some err => (some (none, some err, some err), w)
  | none =>
    match requestHeader cfg this method (jwtTokenOf this) with
    | none => (none, w)
    | some header => requestTraced cfg this method built header w

/-- The method `Resource.request`. The result is `(respData, err, httpErr)`; `none`
is a panic. -/
def request (cfg : Config) (this : Resource) (method service resource : String) (data : Map)
    (w : World) : Option (Option ResourceResponse × GoError × GoError) × World :=
  let w := { w with requestCalls := w.requestCalls + 1 }
  match splitResource resource with
  | none => (none, w)
  | some resource =>
    requestBuilt cfg this method
      (buildRequest cfg method (targetService cfg service) resource data) w

/-- The loop of `Resource.requestWithRetry` from iteration `i` on; `ret` holds the
current `(resp, err)`. The first argument bounds the number of iterations left and
is `_RETRY_COUNT - i` throughout. -/
def requestWithRetryLoop (cfg : Config) (this : Resource) (method service resource : String)
    (data : Map) :
    Nat → Nat → Option ResourceResponse × GoError → World →
      Option (Option ResourceResponse × GoError) × World
  | 0, _, ret, w => (some ret, w)
  | left + 1, i, ret, w =>
    if i < _RETRY_COUNT then
      let w := if 0 < i then w.incRetry else w
      match request cfg this method service resource data w with
      | (none, w) => (none, w)
      | (some (resp, err, httpErr), w) =>
        if httpErr = none then (some (resp, err), w)
        else if this.disableRetry then (some (resp, err), w)
        else if _RETRY_COUNT - 1 ≤ i then (some (resp, err), w)
        else requestWithRetryLoop cfg this method service resource data left (i + 1) (resp, err) w
    else (some ret, w)

/-- The method `Resource.requestWithRetry`. The result is `(resp, err)`; `none` is a
panic. -/
def requestWithRetry (cfg : Config) (this : Resource) (method service resource : String)
    (data : Map) (w : World) : Option (Option ResourceResponse × GoError) × World :=
  requestWithRetryLoop cfg this method service resource data _RETRY_COUNT 0 (none, none) w

/-- The method `Resource.Get`. -/
def Resource.Get (cfg : Config) (this : Resource) (service resource : String) (data : Map)
    (w : World) : Option (Option ResourceResponse × GoError) × World :=
  requestWithRetry cfg this "GET" service resource data w

/-- The method `Resource.Put`. -/
def Resource.Put (cfg : Config) (this : Resource) (service resource : String) (data : Map)
    (w : World) : Option (Option ResourceResponse × GoError) × World :=
  requestWithRetry cfg this "PUT" service resource data w

/-- The method `Resource.Post`. -/
def Resource.Post (cfg : Config) (this : Resource) (service resource : String) (data : Map)
    (w : World) : Option (Option ResourceResponse × GoError) × World :=
  requestWithRetry cfg this "POST" service resource data w

/-- The method `Resource.Delete`. -/
def Resource.Delete (cfg : Config) (this : Resource) (service resource : String) (data : Map)
    (w : World) : Option (Option ResourceResponse × GoError) × World :=
  requestWithRetry cfg this "DELETE" service resource data w

/-- Lines 304 to 305 and 335 to 336: `resp.Data().Get("sid").String()` with the error
dropped; `none` is a nil dereference. -/
def sidOf (resp : Option ResourceResponse) : Option String :=
  match resp with
  | none => none
  | some resp =>
    match resp.Data with
    | none => none
    | some respData =>
      match respData.Get "sid" with
      | none => none
      | some sid => some sid.toStr.1

/-- The method `Resource.LoginAs`. The result is the returned pointer, `some none`
for nil and `some (some r)` for the receiver as the call leaves it; `none` is a
panic. -/
def LoginAs (cfg : Config) (this : Resource) (username : String) (w : World) :
    Option (Option Resource) × World :=
  if cfg._PLATFORM_SECRET = "" then (some none, w)
  else
    match (if cfg._ENABLE_RESOURCE_LOGIN_CACHE then w.corpLoginCache.Get username else none) with
    | some jwt => (some (some { this with CustomJWTToken := jwt }), w)
    | none =>
      match Resource.Put cfg this "gskep" "login.logined_corp_user"
          [("username", GoValue.string username),
           ("password", GoValue.string cfg._PLATFORM_SECRET)] w with
      | (none, w) => (none, w)
      | (some (_, some _), w) => (some none, w)
      | (some (resp, none), w) =>
        match sidOf resp with
        | none => (none, w)
        | some jwt =>
          let w := if cfg._ENABLE_RESOURCE_LOGIN_CACHE then
              { w with corpLoginCache := w.corpLoginCache.Set username jwt }
            else w
          (some (some { this with CustomJWTToken := jwt }), w)

/-- The method `Resource.LoginAsUser`. The result is read as for `LoginAs`. -/
def LoginAsUser (cfg : Config) (this : Resource) (unionid : String) (w : World) :
    Option (Option Resource) × World :=
  if cfg._USER_LOGIN_SECRET = "" then (some none, w)
  else
    match (if cfg._ENABLE_RESOURCE_LOGIN_CACHE then w.userLoginCache.Get unionid else none) with
    | some jwt => (some (some { this with CustomJWTToken := jwt }), w)
    | none =>
      match Resource.Put cfg this "gskep" "login.logined_h5_user"
          [("unionid", GoValue.string unionid),
           ("secret", GoValue.string cfg._USER_LOGIN_SECRET)] w with
      | (none, w) => (none, w)
      | (some (_, some _), w) => (some none, w)
      | (some (resp, none), w) =>
        match sidOf resp with
        | none => (none, w)
        | some jwt =>
          let w := if cfg._ENABLE_RESOURCE_LOGIN_CACHE then
              { w with userLoginCache := w.userLoginCache.Set unionid jwt }
            else w
          (some (some { this with CustomJWTToken := jwt }), w)

/-- The method `Resource.LoginAsManager`. -/
def LoginAsManager (cfg : Config) (this : Resource) (w : World) :
    Option (Option Resource) × World :=
  LoginAs cfg this "manager" w

/-- The method `Resource.DisableRetry`. -/
def DisableRetry (this : Resource) : Resource :=
  { this with disableRetry := true }

/-- The function `NewResource`. -/
def NewResource (ctx : Context) : Resource :=
  { Ctx := ctx, CustomJWTToken := "", disableRetry := false }

/-! ## Runs of attempts -/

/-- The world in which attempt number `k` (counted from 0) of a retry loop starts,
when the `k` attempts before it all came back with a non-nil `httpErr`: after each
of them the loop goes round and increments the retry counter. `none` when one of
the `k` attempts did not come back with a non-nil `httpErr`. -/
def failedAttempts (cfg : Config) (this : Resource) (method service resource : String)
    (data : Map) : Nat → World → Option World
  | 0, w => some w
  | k + 1, w =>
    match request cfg this method service resource data w with
    | (some (_, _, some _), w1) =>
      failedAttempts cfg this method service resource data k w1.incRetry
    | _ => none

/-- The worlds the operations of this file can produce from the state `init()`
leaves, under one configuration and any network. -/
inductive Reachable (cfg : Config) : World → Prop
  | init (transport : Nat → HttpRequest → RoundTrip) : Reachable cfg (World.init transport)
  | byRequest (this : Resource) (method service resource : String) (data : Map) (w : World) :
      Reachable cfg w → Reachable cfg (request cfg this method service resource data w).2
  | byRequestWithRetry (this : Resource) (method service resource : String) (data : Map)
      (w : World) :
      Reachable cfg w → Reachable cfg (requestWithRetry cfg this method service resource data w).2
  | byHandleJWTError (this : Resource) (errCode : String) (w : World) :
      Reachable cfg w → Reachable cfg (handleJWTError cfg this errCode w)
  | byLoginAs (this : Resource) (username : String) (w : World) :
      Reachable cfg w → Reachable cfg (LoginAs cfg this username w).2
  | byLoginAsUser (this : Resource) (unionid : String) (w : World) :
      Reachable cfg w → Reachable cfg (LoginAsUser cfg this unionid w).2

/-- What every call of `handleJWTError` preserves: the ghost counters, the retry
counter, and emptiness of either cache. -/
structure Keeps (w w' : World) : Prop where
  retry : w'.resourceRetryCounter = w.resourceRetryCounter
  corp : w.corpLoginCache = Cache.empty → w'.corpLoginCache = Cache.empty
  user : w.userLoginCache = Cache.empty → w'.userLoginCache = Cache.empty

/-! ## Sample configurations and networks -/

/-- A configuration with both secrets set and the login cache enabled. -/
def demoConfig : Config :=
  { _PLATFORM_SECRET := "s3cr3t"
    _USER_LOGIN_SECRET := "u5er"
    _ENABLE_RESOURCE_LOGIN_CACHE := true
    _SERVICE_NAME := "orders"
    API_SERVER_HOST := "api.local"
    USE_PEANUT_PURE := ""
    REQUEST_HEADER_FORMAT := "X-Mode"
    NewRequest := fun _ _ => none }

/-- The resource `NewResource` returns for a context without values. -/
def demoResource : Resource :=
  NewResource { jwt := none, requestMode := none, span := none }

/-- The body `{"code":200,"data":{"sid":"tok-123"}}`. -/
def okBody : Json :=
  Json.obj [("code", Json.int 200), ("data", Json.obj [("sid", Json.str "tok-123")])]

/-- The body `{"code":403,"errCode":"jwt:invalid_jwt_token"}`. -/
def deniedBody : Json :=
  Json.obj [("code", Json.int 403), ("errCode", Json.str "jwt:invalid_jwt_token")]

/-- The body `{"code":500}`, a failure without the field `errCode`. -/
def opaqueBody : Json :=
  Json.obj [("code", Json.int 500)]

/-- A network on which the first `n` requests time out and every later one is
answered with `okBody`. -/
def timeoutsThenOk (n : Nat) : Nat → HttpRequest → RoundTrip :=
  fun i _ => if i < n then RoundTrip.doErr "timeout" else RoundTrip.goodBody okBody

/-- A network that answers every request with the same body. -/
def alwaysBody (j : Json) : Nat → HttpRequest → RoundTrip :=
  fun _ _ => RoundTrip.goodBody j

/-- The world after `LoginAs("manager")` and `LoginAsUser("union-1")` on a network
that answers every request with `okBody`. -/
def loggedInWorld : World :=
  (LoginAsUser demoConfig demoResource "union-1"
    (LoginAs demoConfig demoResource "manager" (World.init (alwaysBody okBody))).2).2

/-- A resource holding the token `tok-123`. -/
def tokenResource : Resource :=
  { demoResource with CustomJWTToken := "tok-123" }

/-- A world whose corp cache holds `tok-123` for `manager` and whose user cache holds
`tok-123` for `union-1` and `tok-456` for `union-2`. -/
def cachedWorld : World :=
  { World.init (alwaysBody deniedBody) with
    corpLoginCache := Cache.Set Cache.empty "manager" "tok-123"
    userLoginCache := Cache.Set (Cache.Set Cache.empty "union-1" "tok-123") "union-2" "tok-456" }

/-- The sample configuration without a platform secret. -/
def noSecretConfig : Config :=
  { demoConfig with _PLATFORM_SECRET := "" }

/-- The sample configuration with the login cache switched off. -/
def noCacheConfig : Config :=
  { demoConfig with _ENABLE_RESOURCE_LOGIN_CACHE := false }

/-! ## What one call of `request` leaves alone -/

theorem Keeps.refl (w : World) : Keeps w w :=
  ⟨rfl, id, id⟩

theorem Keeps.trans {a b c : World} (h1 : Keeps a b) (h2 : Keeps b c) : Keeps a c :=
  ⟨h2.retry.trans h1.retry, fun h => h2.corp (h1.corp h), fun h => h2.user (h1.user h)⟩

theorem Cache.DelByValue_empty (v : String) : Cache.DelByValue Cache.empty v = Cache.empty := by
  funext k
  simp [Cache.DelByValue, Cache.empty]

theorem handleJWTError_keeps (cfg : Config) (this : Resource) (errCode : String) (w : World) :
    Keeps w (handleJWTError cfg this errCode w) ∧
      (handleJWTError cfg this errCode w).requestCalls = w.requestCalls := by
  unfold handleJWTError
  split_ifs
  all_goals first
    | exact ⟨Keeps.refl w, rfl⟩
    | refine ⟨⟨rfl, fun h => ?_, fun h => ?_⟩, rfl⟩ <;> simp only [h, Cache.DelByValue_empty]

theorem requestSend_keeps (cfg : Config) (this : Resource) (req : HttpRequest) (w : World) :
    Keeps w (requestSend cfg this req w).2 ∧
      (requestSend cfg this req w).2.requestCalls = w.requestCalls := by
  unfold requestSend
  dsimp only
  split
  · exact ⟨⟨rfl, id, id⟩, rfl⟩
  · exact ⟨⟨rfl, id, id⟩, rfl⟩
  · exact ⟨⟨rfl, id, id⟩, rfl⟩
  · split
    · exact ⟨⟨rfl, id, id⟩, rfl⟩
    · exact ⟨⟨rfl, id, id⟩, rfl⟩
    · split
      · exact ⟨⟨rfl, id, id⟩, rfl⟩
      · have h := handleJWTError_keeps cfg this ‹Json›.MustString
          { w with sent := w.sent ++ [req] }
        exact ⟨⟨h.1.retry, h.1.corp, h.1.user⟩, h.2⟩

theorem requestBuilt_keeps (cfg : Config) (this : Resource) (method : String)
    (built : String × Url × Option Values) (w : World) :
    Keeps w (requestBuilt cfg this method built w).2 ∧
      (requestBuilt cfg this method built w).2.requestCalls = w.requestCalls := by
  unfold requestBuilt
  dsimp only
  split
  · exact ⟨⟨rfl, id, id⟩, rfl⟩
  · split
    · exact ⟨⟨rfl, id, id⟩, rfl⟩
    · unfold requestTraced
      split
      · have h := requestSend_keeps cfg this
          { method := built.1, url := built.2.1, body := built.2.2, header := ‹Header› }
          { w with built := w.built ++ [built] }
        exact ⟨⟨h.1.retry, h.1.corp, h.1.user⟩, h.2⟩
      · have h := requestSend_keeps cfg this
          { method := built.1, url := built.2.1, body := built.2.2,
            header := ‹Span›.carrier.foldl
              (fun h kv => Header.Set h kv.1 (HeaderValue.plain kv.2)) ‹Header› }
          { w with built := w.built ++ [built], spanTags := w.spanTags ++
              [SpanTag.spanKindRPCClient, SpanTag.httpUrl built.2.1, SpanTag.httpMethod method] }
        exact ⟨⟨h.1.retry, h.1.corp, h.1.user⟩, h.2⟩

/-- One call of `request` counts itself once, leaves the retry counter alone and
keeps an empty cache empty. -/
theorem request_keeps (cfg : Config) (this : Resource) (method service resource : String)
    (data : Map) (w : World) :
    Keeps w (request cfg this method service resource data w).2 ∧
      (request cfg this method service resource data w).2.requestCalls = w.requestCalls + 1 := by
  unfold request
  dsimp only
  split
  · exact ⟨⟨rfl, id, id⟩, rfl⟩
  · have h := requestBuilt_keeps cfg this method
      (buildRequest cfg method (targetService cfg service) ‹String› data)
      { w with requestCalls := w.requestCalls + 1 }
    exact ⟨⟨h.1.retry, h.1.corp, h.1.user⟩, h.2⟩

/-! ## The retry loop -/

/-- The first iteration of the loop: a panic of `request` is the panic of
`requestWithRetry`. -/
theorem requestWithRetry_panic (cfg : Config) (this : Resource)
    (method service resource : String) (data : Map) (w w' : World)
    (h : request cfg this method service resource data w = (none, w')) :
    requestWithRetry cfg this method service resource data w = (none, w') := by
  simp [requestWithRetry, requestWithRetryLoop, _RETRY_COUNT, h]

/-- The first iteration of the loop: the loop ends after it when `httpErr` is nil or
retry is disabled. -/
theorem requestWithRetry_first (cfg : Config) (this : Resource)
    (method service resource : String) (data : Map) (w w' : World)
    (resp : Option ResourceResponse) (err httpErr : GoError)
    (h : request cfg this method service resource data w = (some (resp, err, httpErr), w'))
    (hstop : httpErr = none ∨ this.disableRetry = true) :
    requestWithRetry cfg this method service resource data w = (some (resp, err), w') := by
  rcases hstop with hstop | hstop
  · simp [requestWithRetry, requestWithRetryLoop, _RETRY_COUNT, h, hstop]
  · simp [requestWithRetry, requestWithRetryLoop, _RETRY_COUNT, h, hstop]

/-- The loop from iteration `i` on, when retry is not disabled: after `k` attempts
with a non-nil `httpErr`, the attempt that follows ends the loop if its `httpErr` is
nil or if it is the third attempt. -/
theorem requestWithRetryLoop_after_failures (cfg : Config) (this : Resource)
    (method service resource : String) (data : Map) (hd : this.disableRetry = false) :
    ∀ (k i : Nat) (ret : Option ResourceResponse × GoError) (w ak wF : World)
      (resp : Option ResourceResponse) (err httpErr : GoError),
      i + k ≤ 2 →
      failedAttempts cfg this method service resource data k
        (if 0 < i then w.incRetry else w) = some ak →
      request cfg this method service resource data ak = (some (resp, err, httpErr), wF) →
      (httpErr = none ∨ i + k = 2) →
      requestWithRetryLoop cfg this method service resource data (3 - i) i ret w
        = (some (resp, err), wF) := by
  intro k
  induction k with
  | zero =>
    intro i ret w ak wF resp err httpErr hik hf hlast hstop
    have hi : 3 - i = (2 - i) + 1 := by omega
    have hlt : i < 3 := by omega
    simp only [failedAttempts, Option.some.injEq] at hf
    rw [hi, requestWithRetryLoop]
    simp only [_RETRY_COUNT, hlt, if_true, hf, hlast]
    rcases hstop with hstop | hstop
    · simp [hstop]
    · have h2 : 3 - 1 ≤ i := by omega
      simp [hd, h2]
  | succ k ih =>
    intro i ret w ak wF resp err httpErr hik hf hlast hstop
    have hi : 3 - i = (2 - i) + 1 := by omega
    have hlt : i < 3 := by omega
    have h2 : ¬ (3 - 1 ≤ i) := by omega
    rw [failedAttempts] at hf
    rw [hi, requestWithRetryLoop]
    simp only [_RETRY_COUNT, hlt, if_true]
    generalize hreq : request cfg this method service resource data
      (if 0 < i then w.incRetry else w) = res at hf
    rcases res with ⟨_ | ⟨resp1, err1, _ | e1⟩, w1⟩
    · simp at hf
    · simp at hf
    · simp only at hf
      simp only [hd, h2, if_false, reduceCtorEq, Bool.false_eq_true]
      have hi1 : 2 - i = 3 - (i + 1) := by omega
      rw [hi1]
      refine ih (i + 1) (resp1, err1) w1 ak wF resp err httpErr (by omega) ?_ hlast ?_
      · simpa using hf
      · rcases hstop with hstop | hstop
        · exact Or.inl hstop
        · exact Or.inr (by omega)

/-- The world after `k` failed attempts has counted `k` calls of `request` and `k`
increments of the retry counter. -/
theorem failedAttempts_counts (cfg : Config) (this : Resource)
    (method service resource : String) (data : Map) :
    ∀ (k : Nat) (w wk : World),
      failedAttempts cfg this method service resource data k w = some wk →
      wk.requestCalls = w.requestCalls + k ∧
        wk.resourceRetryCounter = w.resourceRetryCounter + k := by
  intro k
  induction k with
  | zero =>
    intro w wk h
    simp only [failedAttempts, Option.some.injEq] at h
    subst h
    exact ⟨rfl, rfl⟩
  | succ k ih =>
    intro w wk h
    rw [failedAttempts] at h
    have hk := request_keeps cfg this method service resource data w
    generalize request cfg this method service resource data w = res at h hk
    rcases res with ⟨_ | ⟨resp1, err1, _ | e1⟩, w1⟩
    · simp at h
    · simp at h
    · simp only at h
      have h3 := ih w1.incRetry wk h
      simp only [World.incRetry, Counter.Inc] at h3
      have h4 : w1.requestCalls = w.requestCalls + 1 := hk.2
      have h5 : w1.resourceRetryCounter = w.resourceRetryCounter := hk.1.retry
      omega

/-! ## The retry policy -/

/-- C1: when the first call of `request` comes back as an application failure (`err`
non-nil, `httpErr` nil), `requestWithRetry` returns that attempt's response and error
in the world that one call left, in which `request` was invoked once more than before
and the retry counter is what it was; the receiver, and so its `disableRetry`, is
arbitrary. -/
theorem requestWithRetry_application_failure (cfg : Config) (this : Resource)
    (method service resource : String) (data : Map) (w w' : World)
    (resp : Option ResourceResponse) (e : String)
    (h : request cfg this method service resource data w = (some (resp, some e, none), w')) :
    requestWithRetry cfg this method service resource data w = (some (resp, some e), w') ∧
      w'.requestCalls = w.requestCalls + 1 ∧
      w'.resourceRetryCounter = w.resourceRetryCounter := by
  have hk := request_keeps cfg this method service resource data w
  rw [h] at hk
  exact ⟨requestWithRetry_first cfg this method service resource data w w' resp (some e) none h
    (Or.inl rfl), hk.2, hk.1.retry⟩

theorem requestWithRetry_application_failure_witness :
    request demoConfig demoResource "GET" "shop" "order.list" [] (World.init (alwaysBody deniedBody))
        = (some (some { RespData := deniedBody }, some "jwt:invalid_jwt_token", none),
            (request demoConfig demoResource "GET" "shop" "order.list" []
              (World.init (alwaysBody deniedBody))).2) ∧
      (requestWithRetry demoConfig demoResource "GET" "shop" "order.list" []
          (World.init (alwaysBody deniedBody))
        = (some (some { RespData := deniedBody }, some "jwt:invalid_jwt_token"),
            (request demoConfig demoResource "GET" "shop" "order.list" []
              (World.init (alwaysBody deniedBody))).2) ∧
        (request demoConfig demoResource "GET" "shop" "order.list" []
            (World.init (alwaysBody deniedBody))).2.requestCalls
          = (World.init (alwaysBody deniedBody)).requestCalls + 1 ∧
        (request demoConfig demoResource "GET" "shop" "order.list" []
            (World.init (alwaysBody deniedBody))).2.resourceRetryCounter
          = (World.init (alwaysBody deniedBody)).resourceRetryCounter) :=
  ⟨rfl, requestWithRetry_application_failure demoConfig demoResource "GET" "shop" "order.list" []
    (World.init (alwaysBody deniedBody)) _ _ _ rfl⟩

/-- C2, as the code has it: with retry not disabled, for every `N` from 0 to 2
(`_RETRY_COUNT - 1`), when the first `N` attempts of `request` are transport failures
and the attempt after them succeeds, `requestWithRetry` returns the successful
response with a nil error, and by then the retry counter has been incremented `N`
times and `request` invoked `N + 1` times. -/
theorem requestWithRetry_failures_then_success (cfg : Config) (this : Resource)
    (method service resource : String) (data : Map) (N : Nat) (w wN wF : World)
    (resp : ResourceResponse)
    (hd : this.disableRetry = false) (hN : N ≤ _RETRY_COUNT - 1)
    (hfail : failedAttempts cfg this method service resource data N w = some wN)
    (hok : request cfg this method service resource data wN = (some (some resp, none, none), wF)) :
    requestWithRetry cfg this method service resource data w = (some (some resp, none), wF) ∧
      wF.resourceRetryCounter = w.resourceRetryCounter + N ∧
      wF.requestCalls = w.requestCalls + N + 1 := by
  have hN2 : 0 + N ≤ 2 := by
    simp only [_RETRY_COUNT] at hN
    omega
  have hloop := requestWithRetryLoop_after_failures cfg this method service resource data hd
    N 0 (none, none) w wN wF (some resp) none none hN2 (by simpa using hfail) hok (Or.inl rfl)
  have hc := failedAttempts_counts cfg this method service resource data N w wN hfail
  have hk := request_keeps cfg this method service resource data wN
  rw [hok] at hk
  refine ⟨hloop, ?_, ?_⟩
  · rw [hk.1.retry, hc.2]
  · rw [hk.2, hc.1]

theorem requestWithRetry_failures_then_success_witness :
    requestWithRetry demoConfig demoResource "GET" "shop" "order.list" []
        (World.init (timeoutsThenOk 2))
      = (some (some { RespData := okBody }, none),
          (requestWithRetry demoConfig demoResource "GET" "shop" "order.list" []
            (World.init (timeoutsThenOk 2))).2) ∧
      (requestWithRetry demoConfig demoResource "GET" "shop" "order.list" []
          (World.init (timeoutsThenOk 2))).2.resourceRetryCounter
        = (World.init (timeoutsThenOk 2)).resourceRetryCounter + 2 ∧
      (requestWithRetry demoConfig demoResource "GET" "shop" "order.list" []
          (World.init (timeoutsThenOk 2))).2.requestCalls
        = (World.init (timeoutsThenOk 2)).requestCalls + 2 + 1 :=
  requestWithRetry_failures_then_success demoConfig demoResource "GET" "shop" "order.list" [] 2
    (World.init (timeoutsThenOk 2))
    ((failedAttempts demoConfig demoResource "GET" "shop" "order.list" [] 2
      (World.init (timeoutsThenOk 2))).getD (World.init (timeoutsThenOk 2)))
    _ { RespData := okBody } rfl (by decide) rfl rfl

/-- C2 fails for `N = 3`: on a network where three requests time out and the fourth
would be answered with code 200, three attempts are transport failures and the
attempt after them would succeed, yet `requestWithRetry` returns the third timeout
with a nil response after three calls of `request` and two increments of the retry
counter. -/
theorem requestWithRetry_three_failures_counterexample :
    (failedAttempts demoConfig demoResource "GET" "shop" "order.list" [] 3
        (World.init (timeoutsThenOk 3))).isSome = true ∧
      (request demoConfig demoResource "GET" "shop" "order.list" []
          ((failedAttempts demoConfig demoResource "GET" "shop" "order.list" [] 3
            (World.init (timeoutsThenOk 3))).getD (World.init (timeoutsThenOk 3)))).1
        = some (some { RespData := okBody }, none, none) ∧
      (requestWithRetry demoConfig demoResource "GET" "shop" "order.list" []
          (World.init (timeoutsThenOk 3))).1 = some (none, some "timeout") ∧
      (requestWithRetry demoConfig demoResource "GET" "shop" "order.list" []
          (World.init (timeoutsThenOk 3))).2.requestCalls = 3 ∧
      (requestWithRetry demoConfig demoResource "GET" "shop" "order.list" []
          (World.init (timeoutsThenOk 3))).2.resourceRetryCounter = 2 :=
  ⟨rfl, rfl, rfl, rfl, rfl⟩

/-- C3: with retry not disabled, when the first attempt, the second attempt (made
after one increment of the retry counter) and the third attempt (made after another)
all come back with a non-nil `httpErr`, `requestWithRetry` returns the response and
error of the third attempt in the world that attempt left: `request` has been invoked
three times, the retry counter incremented twice. -/
theorem requestWithRetry_all_transport_failures (cfg : Config) (this : Resource)
    (method service resource : String) (data : Map) (w w1 w2 w3 : World)
    (resp1 resp2 resp3 : Option ResourceResponse) (err1 err2 err3 : GoError)
    (t1 t2 t3 : String)
    (hd : this.disableRetry = false)
    (h1 : request cfg this method service resource data w = (some (resp1, err1, some t1), w1))
    (h2 : request cfg this method service resource data w1.incRetry
      = (some (resp2, err2, some t2), w2))
    (h3 : request cfg this method service resource data w2.incRetry
      = (some (resp3, err3, some t3), w3)) :
    requestWithRetry cfg this method service resource data w = (some (resp3, err3), w3) ∧
      w3.requestCalls = w.requestCalls + 3 ∧
      w3.resourceRetryCounter = w.resourceRetryCounter + 2 := by
  have hfail : failedAttempts cfg this method service resource data 2 w = some w2.incRetry := by
    simp [failedAttempts, h1, h2]
  have hloop := requestWithRetryLoop_after_failures cfg this method service resource data hd
    2 0 (none, none) w w2.incRetry w3 resp3 err3 (some t3) (by omega) (by simpa using hfail) h3
    (Or.inr rfl)
  have hc := failedAttempts_counts cfg this method service resource data 2 w w2.incRetry hfail
  have hk := request_keeps cfg this method service resource data w2.incRetry
  rw [h3] at hk
  refine ⟨hloop, ?_, ?_⟩
  · rw [hk.2, hc.1]
  · rw [hk.1.retry, hc.2]

theorem requestWithRetry_all_transport_failures_witness :
    requestWithRetry demoConfig demoResource "GET" "shop" "order.list" []
        (World.init (timeoutsThenOk 5))
      = (some (none, some "timeout"),
          (requestWithRetry demoConfig demoResource "GET" "shop" "order.list" []
            (World.init (timeoutsThenOk 5))).2) ∧
      (requestWithRetry demoConfig demoResource "GET" "shop" "order.list" []
          (World.init (timeoutsThenOk 5))).2.requestCalls
        = (World.init (timeoutsThenOk 5)).requestCalls + 3 ∧
      (requestWithRetry demoConfig demoResource "GET" "shop" "order.list" []
          (World.init (timeoutsThenOk 5))).2.resourceRetryCounter
        = (World.init (timeoutsThenOk 5)).resourceRetryCounter + 2 :=
  requestWithRetry_all_transport_failures demoConfig demoResource "GET" "shop" "order.list" []
    (World.init (timeoutsThenOk 5))
    (request demoConfig demoResource "GET" "shop" "order.list" []
      (World.init (timeoutsThenOk 5))).2
    (request demoConfig demoResource "GET" "shop" "order.list" []
      (request demoConfig demoResource "GET" "shop" "order.list" []
        (World.init (timeoutsThenOk 5))).2.incRetry).2
    _ none none none (some "timeout") (some "timeout") (some "timeout")
    "timeout" "timeout" "timeout" rfl rfl rfl rfl

/-- C4: `DisableRetry` sets `disableRetry` and keeps `Ctx` and `CustomJWTToken`; on
the resource it returns, `requestWithRetry` is one call of `request`, whatever that
call does: it returns the call's response and error (or panics with it) in the world
the call left, where `request` was invoked once more than before and the retry counter
is what it was. -/
theorem DisableRetry_single_attempt (this : Resource) :
    (DisableRetry this).disableRetry = true ∧
      (DisableRetry this).Ctx = this.Ctx ∧
      (DisableRetry this).CustomJWTToken = this.CustomJWTToken ∧
      ∀ (cfg : Config) (method service resource : String) (data : Map) (w : World),
        requestWithRetry cfg (DisableRetry this) method service resource data w
            = ((request cfg (DisableRetry this) method service resource data w).1.map
                  (fun out => (out.1, out.2.1)),
                (request cfg (DisableRetry this) method service resource data w).2) ∧
          (requestWithRetry cfg (DisableRetry this) method service resource data w).2.requestCalls
            = w.requestCalls + 1 ∧
          (requestWithRetry cfg (DisableRetry this) method service resource data
              w).2.resourceRetryCounter
            = w.resourceRetryCounter := by
  refine ⟨rfl, rfl, rfl, ?_⟩
  intro cfg method service resource data w
  have hk := request_keeps cfg (DisableRetry this) method service resource data w
  have heq : requestWithRetry cfg (DisableRetry this) method service resource data w
      = ((request cfg (DisableRetry this) method service resource data w).1.map
            (fun out => (out.1, out.2.1)),
          (request cfg (DisableRetry this) method service resource data w).2) := by
    generalize hreq : request cfg (DisableRetry this) method service resource data w = res
    rcases res with ⟨_ | ⟨resp, err, httpErr⟩, w'⟩
    · exact requestWithRetry_panic cfg _ method service resource data w w' hreq
    · exact requestWithRetry_first cfg _ method service resource data w w' resp err httpErr hreq
        (Or.inr rfl)
  rw [heq]
  exact ⟨rfl, hk.2, hk.1.retry⟩

/-! ## The envelope -/

/-- The pointer `Get` returns is never nil. -/
theorem Json.Get_ne_none (j : Json) (key : String) : j.Get key ≠ none := by
  unfold Json.Get
  split
  · split <;> simp
  · simp

/-- C5 fails on the body `{"code":500}`: the envelope comes back with a nil `httpErr`,
but the error carries the empty message, not `remote_service_error`; the branch that
would produce `remote_service_error` tests the pointer returned by `Get` against
nil, which it never is. -/
theorem request_missing_errCode_message :
    (request demoConfig demoResource "GET" "shop" "order.list" []
        (World.init (alwaysBody opaqueBody))).1
      = some (some { RespData := opaqueBody }, some "", none) ∧
    (some "" : GoError) ≠ some "remote_service_error" ∧
    ∀ (j : Json), j.Get "errCode" ≠ none :=
  ⟨rfl, by decide, fun j => Json.Get_ne_none j "errCode"⟩

/-! ## The invalidation hook -/

/-- C6: when caching is enabled, the error code is `jwt:invalid_jwt_token` and the
receiver's `CustomJWTToken` T is not empty, `handleJWTError` leaves each of the corp
and the user cache without the entries whose value is T and with every other entry
as it was, and the error-jwt-in-cache counter one higher; in every other case it
returns the world unchanged. -/
theorem handleJWTError_effect (cfg : Config) (this : Resource) (errCode : String) (w : World) :
    ((cfg._ENABLE_RESOURCE_LOGIN_CACHE = true ∧ errCode = InvalidJwtError ∧
        this.CustomJWTToken ≠ "") →
      (∀ k, w.corpLoginCache.Get k = some this.CustomJWTToken →
        (handleJWTError cfg this errCode w).corpLoginCache.Get k = none) ∧
      (∀ k, w.corpLoginCache.Get k ≠ some this.CustomJWTToken →
        (handleJWTError cfg this errCode w).corpLoginCache.Get k = w.corpLoginCache.Get k) ∧
      (∀ k, w.userLoginCache.Get k = some this.CustomJWTToken →
        (handleJWTError cfg this errCode w).userLoginCache.Get k = none) ∧
      (∀ k, w.userLoginCache.Get k ≠ some this.CustomJWTToken →
        (handleJWTError cfg this errCode w).userLoginCache.Get k = w.userLoginCache.Get k) ∧
      (handleJWTError cfg this errCode w).errorJwtInCacheCounter
        = w.errorJwtInCacheCounter + 1) ∧
    (¬ (cfg._ENABLE_RESOURCE_LOGIN_CACHE = true ∧ errCode = InvalidJwtError ∧
        this.CustomJWTToken ≠ "") →
      handleJWTError cfg this errCode w = w) := by
  constructor
  · rintro ⟨hen, hcode, htok⟩
    have hw : handleJWTError cfg this errCode w =
        { w with
          corpLoginCache := w.corpLoginCache.DelByValue this.CustomJWTToken
          userLoginCache := w.userLoginCache.DelByValue this.CustomJWTToken
          errorJwtInCacheCounter := Counter.Inc w.errorJwtInCacheCounter } := by
      simp [handleJWTError, hen, hcode, htok]
    rw [hw]
    refine ⟨?_, ?_, ?_, ?_, rfl⟩
    · intro k hk
      simp only [Cache.Get] at hk
      simp [Cache.Get, Cache.DelByValue, hk]
    · intro k hk
      simp only [Cache.Get] at hk
      simp [Cache.Get, Cache.DelByValue, hk]
    · intro k hk
      simp only [Cache.Get] at hk
      simp [Cache.Get, Cache.DelByValue, hk]
    · intro k hk
      simp only [Cache.Get] at hk
      simp [Cache.Get, Cache.DelByValue, hk]
  · intro hnot
    unfold handleJWTError
    split_ifs with h1 h2 h3
    · rfl
    · rfl
    · exact absurd ⟨h1, not_not.mp h2, h3⟩ hnot
    · rfl

theorem handleJWTError_effect_witness :
    (demoConfig._ENABLE_RESOURCE_LOGIN_CACHE = true ∧ InvalidJwtError = InvalidJwtError ∧
        tokenResource.CustomJWTToken ≠ "") ∧
      cachedWorld.userLoginCache.Get "union-1" = some tokenResource.CustomJWTToken ∧
      cachedWorld.userLoginCache.Get "union-2" ≠ some tokenResource.CustomJWTToken ∧
      (handleJWTError demoConfig tokenResource InvalidJwtError cachedWorld).userLoginCache.Get
          "union-1" = none ∧
      (handleJWTError demoConfig tokenResource InvalidJwtError cachedWorld).userLoginCache.Get
          "union-2" = cachedWorld.userLoginCache.Get "union-2" ∧
      (handleJWTError demoConfig tokenResource InvalidJwtError cachedWorld).corpLoginCache.Get
          "manager" = none ∧
      (handleJWTError demoConfig tokenResource InvalidJwtError cachedWorld).errorJwtInCacheCounter
        = cachedWorld.errorJwtInCacheCounter + 1 ∧
      ¬ (demoConfig._ENABLE_RESOURCE_LOGIN_CACHE = true ∧ "other" = InvalidJwtError ∧
        tokenResource.CustomJWTToken ≠ "") ∧
      handleJWTError demoConfig tokenResource "other" cachedWorld = cachedWorld :=
  have hguard : demoConfig._ENABLE_RESOURCE_LOGIN_CACHE = true ∧
      InvalidJwtError = InvalidJwtError ∧ tokenResource.CustomJWTToken ≠ "" :=
    ⟨rfl, rfl, by decide⟩
  have hother : ¬ (demoConfig._ENABLE_RESOURCE_LOGIN_CACHE = true ∧ "other" = InvalidJwtError ∧
      tokenResource.CustomJWTToken ≠ "") := by decide
  have h1 : cachedWorld.userLoginCache.Get "union-1" = some tokenResource.CustomJWTToken := by
    decide
  have h2 : cachedWorld.userLoginCache.Get "union-2" ≠ some tokenResource.CustomJWTToken := by
    decide
  have h3 : cachedWorld.corpLoginCache.Get "manager" = some tokenResource.CustomJWTToken := by
    decide
  have hyes := (handleJWTError_effect demoConfig tokenResource InvalidJwtError cachedWorld).1 hguard
  ⟨hguard, h1, h2, hyes.2.2.1 "union-1" h1, hyes.2.2.2.1 "union-2" h2, hyes.1 "manager" h3,
    hyes.2.2.2.2, hother,
    (handleJWTError_effect demoConfig tokenResource "other" cachedWorld).2 hother⟩

/-! ## Logging in -/

/-- The retry loop keeps an empty cache empty. -/
theorem requestWithRetryLoop_keeps_empty (cfg : Config) (this : Resource)
    (method service resource : String) (data : Map) :
    ∀ (left i : Nat) (ret : Option ResourceResponse × GoError) (w : World),
      (w.corpLoginCache = Cache.empty →
        (requestWithRetryLoop cfg this method service resource data left i ret
          w).2.corpLoginCache = Cache.empty) ∧
      (w.userLoginCache = Cache.empty →
        (requestWithRetryLoop cfg this method service resource data left i ret
          w).2.userLoginCache = Cache.empty) := by
  intro left
  induction left with
  | zero =>
    intro i ret w
    exact ⟨id, id⟩
  | succ left ih =>
    intro i ret w
    rw [requestWithRetryLoop]
    by_cases hlt : i < _RETRY_COUNT
    · simp only [hlt, if_true]
      have hc : (if 0 < i then w.incRetry else w).corpLoginCache = w.corpLoginCache := by
        split_ifs <;> rfl
      have hu : (if 0 < i then w.incRetry else w).userLoginCache = w.userLoginCache := by
        split_ifs <;> rfl
      generalize (if 0 < i then w.incRetry else w) = a at hc hu
      have hk := request_keeps cfg this method service resource data a
      generalize request cfg this method service resource data a = res at hk
      rcases res with ⟨_ | ⟨resp, err, httpErr⟩, w1⟩
      · exact ⟨fun h => hk.1.corp (hc.trans h), fun h => hk.1.user (hu.trans h)⟩
      · have hstop : (w.corpLoginCache = Cache.empty → w1.corpLoginCache = Cache.empty) ∧
            (w.userLoginCache = Cache.empty → w1.userLoginCache = Cache.empty) :=
          ⟨fun h => hk.1.corp (hc.trans h), fun h => hk.1.user (hu.trans h)⟩
        dsimp only
        split_ifs
        · exact hstop
        · exact hstop
        · exact hstop
        · have h := ih (i + 1) (resp, err) w1
          exact ⟨fun h0 => h.1 (hstop.1 h0), fun h0 => h.2 (hstop.2 h0)⟩
    · simp only [hlt, if_false]
      exact ⟨id, id⟩

/-- The call `LoginAs` keeps an empty user cache empty, and an empty corp cache
empty when the platform secret is not set. -/
theorem LoginAs_keeps_empty (cfg : Config) (this : Resource) (username : String) (w : World) :
    (cfg._PLATFORM_SECRET = "" → (LoginAs cfg this username w).2 = w) ∧
    (w.userLoginCache = Cache.empty →
      (LoginAs cfg this username w).2.userLoginCache = Cache.empty) := by
  unfold LoginAs
  by_cases hs : cfg._PLATFORM_SECRET = ""
  · rw [if_pos hs]
    exact ⟨fun _ => rfl, id⟩
  · rw [if_neg hs]
    refine ⟨fun h => absurd h hs, ?_⟩
    intro hu
    have hl := (requestWithRetryLoop_keeps_empty cfg this "PUT" "gskep" "login.logined_corp_user"
      [("username", GoValue.string username), ("password", GoValue.string cfg._PLATFORM_SECRET)]
      _RETRY_COUNT 0 (none, none) w).2 hu
    simp only [Resource.Put, requestWithRetry]
    generalize requestWithRetryLoop cfg this "PUT" "gskep" "login.logined_corp_user"
      [("username", GoValue.string username), ("password", GoValue.string cfg._PLATFORM_SECRET)]
      _RETRY_COUNT 0 (none, none) w = res at hl
    generalize (if cfg._ENABLE_RESOURCE_LOGIN_CACHE = true then w.corpLoginCache.Get username else none) = hit
    rcases hit with _ | jwt
    · rcases res with ⟨_ | ⟨resp, _ | e⟩, w1⟩
      · exact hl
      · dsimp only
        cases sidOf resp with
        | none => exact hl
        | some jwt =>
          dsimp only
          split_ifs <;> exact hl
      · exact hl
    · exact hu

/-- The call `LoginAsUser` keeps an empty corp cache empty, and an empty user cache
empty when the user login secret is not set. -/
theorem LoginAsUser_keeps_empty (cfg : Config) (this : Resource) (unionid : String) (w : World) :
    (cfg._USER_LOGIN_SECRET = "" → (LoginAsUser cfg this unionid w).2 = w) ∧
    (w.corpLoginCache = Cache.empty →
      (LoginAsUser cfg this unionid w).2.corpLoginCache = Cache.empty) := by
  unfold LoginAsUser
  by_cases hs : cfg._USER_LOGIN_SECRET = ""
  · rw [if_pos hs]
    exact ⟨fun _ => rfl, id⟩
  · rw [if_neg hs]
    refine ⟨fun h => absurd h hs, ?_⟩
    intro hu
    have hl := (requestWithRetryLoop_keeps_empty cfg this "PUT" "gskep" "login.logined_h5_user"
      [("unionid", GoValue.string unionid), ("secret", GoValue.string cfg._USER_LOGIN_SECRET)]
      _RETRY_COUNT 0 (none, none) w).1 hu
    simp only [Resource.Put, requestWithRetry]
    generalize requestWithRetryLoop cfg this "PUT" "gskep" "login.logined_h5_user"
      [("unionid", GoValue.string unionid), ("secret", GoValue.string cfg._USER_LOGIN_SECRET)]
      _RETRY_COUNT 0 (none, none) w = res at hl
    generalize (if cfg._ENABLE_RESOURCE_LOGIN_CACHE = true then w.userLoginCache.Get unionid else none) = hit
    rcases hit with _ | jwt
    · rcases res with ⟨_ | ⟨resp, _ | e⟩, w1⟩
      · exact hl
      · dsimp only
        cases sidOf resp with
        | none => exact hl
        | some jwt =>
          dsimp only
          split_ifs <;> exact hl
      · exact hl
    · exact hu

/-- In every reachable world a cache whose secret is not set is empty: only a login
that passed the check of its secret writes to its cache. -/
theorem Reachable.secret_of_entry (cfg : Config) (w : World) (hr : Reachable cfg w) :
    (cfg._PLATFORM_SECRET = "" → w.corpLoginCache = Cache.empty) ∧
    (cfg._USER_LOGIN_SECRET = "" → w.userLoginCache = Cache.empty) := by
  induction hr with
  | init transport => exact ⟨fun _ => rfl, fun _ => rfl⟩
  | byRequest this method service resource data w _ ih =>
    have hk := (request_keeps cfg this method service resource data w).1
    exact ⟨fun h => hk.corp (ih.1 h), fun h => hk.user (ih.2 h)⟩
  | byRequestWithRetry this method service resource data w _ ih =>
    have hk := requestWithRetryLoop_keeps_empty cfg this method service resource data
      _RETRY_COUNT 0 (none, none) w
    exact ⟨fun h => hk.1 (ih.1 h), fun h => hk.2 (ih.2 h)⟩
  | byHandleJWTError this errCode w _ ih =>
    have hk := (handleJWTError_keeps cfg this errCode w).1
    exact ⟨fun h => hk.corp (ih.1 h), fun h => hk.user (ih.2 h)⟩
  | byLoginAs this username w _ ih =>
    have hk := LoginAs_keeps_empty cfg this username w
    refine ⟨fun h => ?_, fun h => hk.2 (ih.2 h)⟩
    rw [hk.1 h]
    exact ih.1 h
  | byLoginAsUser this unionid w _ ih =>
    have hk := LoginAsUser_keeps_empty cfg this unionid w
    refine ⟨fun h => hk.2 (ih.1 h), fun h => ?_⟩
    rw [hk.1 h]
    exact ih.2 h

/-- C7: with caching enabled, in every world the operations of this file can reach,
for an identity I whose entry in the corp cache holds T, `LoginAs(I)` returns the
receiver with `CustomJWTToken = T` and the world as it was, and for an identity I whose
entry in the user cache holds T, so does `LoginAsUser(I)`: no call of `request` is
counted, nothing is built or sent, and both caches are what they were. -/
theorem LoginAs_cached (cfg : Config) (w : World) (this : Resource) (I T : String)
    (hr : Reachable cfg w) (hen : cfg._ENABLE_RESOURCE_LOGIN_CACHE = true) :
    (w.corpLoginCache.Get I = some T →
      LoginAs cfg this I w = (some (some { this with CustomJWTToken := T }), w)) ∧
    (w.userLoginCache.Get I = some T →
      LoginAsUser cfg this I w = (some (some { this with CustomJWTToken := T }), w)) := by
  have hinv := Reachable.secret_of_entry cfg w hr
  constructor
  · intro hget
    have hs : cfg._PLATFORM_SECRET ≠ "" := by
      intro h
      have he := hinv.1 h
      simp [Cache.Get, he, Cache.empty] at hget
    simp [LoginAs, hs, hen, hget]
  · intro hget
    have hs : cfg._USER_LOGIN_SECRET ≠ "" := by
      intro h
      have he := hinv.2 h
      simp [Cache.Get, he, Cache.empty] at hget
    simp [LoginAsUser, hs, hen, hget]

theorem LoginAs_cached_witness :
    (loggedInWorld.corpLoginCache.Get "manager" = some "tok-123" ∧
      loggedInWorld.userLoginCache.Get "union-1" = some "tok-123") ∧
    LoginAs demoConfig demoResource "manager" loggedInWorld
      = (some (some { demoResource with CustomJWTToken := "tok-123" }), loggedInWorld) ∧
    LoginAsUser demoConfig demoResource "union-1" loggedInWorld
      = (some (some { demoResource with CustomJWTToken := "tok-123" }), loggedInWorld) :=
  have hr : Reachable demoConfig loggedInWorld :=
    Reachable.byLoginAsUser demoResource "union-1" _
      (Reachable.byLoginAs demoResource "manager" _ (Reachable.init (alwaysBody okBody)))
  have hc : loggedInWorld.corpLoginCache.Get "manager" = some "tok-123" := by decide
  have hu : loggedInWorld.userLoginCache.Get "union-1" = some "tok-123" := by decide
  ⟨⟨hc, hu⟩,
    (LoginAs_cached demoConfig loggedInWorld demoResource "manager" "tok-123" hr rfl).1 hc,
    (LoginAs_cached demoConfig loggedInWorld demoResource "union-1" "tok-123" hr rfl).2 hu⟩

/-- After `k` attempts with a non-nil `httpErr`, at most two and none when retry is
disabled, an attempt with a nil `httpErr` ends `requestWithRetry`. -/
theorem requestWithRetry_after_failures (cfg : Config) (this : Resource)
    (method service resource : String) (data : Map) (k : Nat) (w wk wF : World)
    (resp : Option ResourceResponse) (err : GoError)
    (hd : this.disableRetry = true → k = 0) (hk : k ≤ 2)
    (hfail : failedAttempts cfg this method service resource data k w = some wk)
    (hlast : request cfg this method service resource data wk = (some (resp, err, none), wF)) :
    requestWithRetry cfg this method service resource data w = (some (resp, err), wF) := by
  cases hdis : this.disableRetry with
  | true =>
    have h0 := hd hdis
    subst h0
    simp only [failedAttempts, Option.some.injEq] at hfail
    subst hfail
    exact requestWithRetry_first cfg this method service resource data w wF resp err none hlast
      (Or.inl rfl)
  | false =>
    exact requestWithRetryLoop_after_failures cfg this method service resource data hdis
      k 0 (none, none) w wk wF resp err none (by omega) (by simpa using hfail) hlast (Or.inl rfl)

/-- C8, as the code has it: with caching enabled and the secret of the login set,
for an identity I without an entry in the cache, when the first `k` attempts of the
authentication `Put` are transport failures (`k` at most 2, and 0 when retry is
disabled) and the attempt after them succeeds with `sid = S`, `LoginAs(I)` returns the
receiver with `CustomJWTToken = S`, has invoked `request` `k + 1` times (once when the
first attempt is answered), and leaves a corp cache in which `Get(I)` is S; the same
holds of `LoginAsUser(I)` and the user cache. -/
theorem LoginAs_uncached (cfg : Config) (this : Resource) (I S : String) (k : Nat)
    (w wk wF : World) (resp : ResourceResponse)
    (hen : cfg._ENABLE_RESOURCE_LOGIN_CACHE = true)
    (hd : this.disableRetry = true → k = 0) (hk : k ≤ _RETRY_COUNT - 1)
    (hsid : sidOf (some resp) = some S) :
    (cfg._PLATFORM_SECRET ≠ "" → w.corpLoginCache.Get I = none →
      failedAttempts cfg this "PUT" "gskep" "login.logined_corp_user"
        [("username", GoValue.string I), ("password", GoValue.string cfg._PLATFORM_SECRET)]
        k w = some wk →
      request cfg this "PUT" "gskep" "login.logined_corp_user"
        [("username", GoValue.string I), ("password", GoValue.string cfg._PLATFORM_SECRET)]
        wk = (some (some resp, none, none), wF) →
      (LoginAs cfg this I w).1 = some (some { this with CustomJWTToken := S }) ∧
        (LoginAs cfg this I w).2.requestCalls = w.requestCalls + k + 1 ∧
        (LoginAs cfg this I w).2.corpLoginCache.Get I = some S) ∧
    (cfg._USER_LOGIN_SECRET ≠ "" → w.userLoginCache.Get I = none →
      failedAttempts cfg this "PUT" "gskep" "login.logined_h5_user"
        [("unionid", GoValue.string I), ("secret", GoValue.string cfg._USER_LOGIN_SECRET)]
        k w = some wk →
      request cfg this "PUT" "gskep" "login.logined_h5_user"
        [("unionid", GoValue.string I), ("secret", GoValue.string cfg._USER_LOGIN_SECRET)]
        wk = (some (some resp, none, none), wF) →
      (LoginAsUser cfg this I w).1 = some (some { this with CustomJWTToken := S }) ∧
        (LoginAsUser cfg this I w).2.requestCalls = w.requestCalls + k + 1 ∧
        (LoginAsUser cfg this I w).2.userLoginCache.Get I = some S) := by
  have hk2 : k ≤ 2 := by
    simp only [_RETRY_COUNT] at hk
    omega
  constructor
  · intro hs hmiss hfail hok
    have hput := requestWithRetry_after_failures cfg this "PUT" "gskep"
      "login.logined_corp_user"
      [("username", GoValue.string I), ("password", GoValue.string cfg._PLATFORM_SECRET)]
      k w wk wF (some resp) none hd hk2 hfail hok
    have hc := failedAttempts_counts cfg this "PUT" "gskep" "login.logined_corp_user"
      [("username", GoValue.string I), ("password", GoValue.string cfg._PLATFORM_SECRET)]
      k w wk hfail
    have hkeep := request_keeps cfg this "PUT" "gskep" "login.logined_corp_user"
      [("username", GoValue.string I), ("password", GoValue.string cfg._PLATFORM_SECRET)] wk
    rw [hok] at hkeep
    have hcalls : wF.requestCalls = w.requestCalls + k + 1 := by
      rw [hkeep.2, hc.1]
    have hrun : LoginAs cfg this I w = (some (some { this with CustomJWTToken := S }),
        { wF with corpLoginCache := wF.corpLoginCache.Set I S }) := by
      simp [LoginAs, hs, hen, hmiss, Resource.Put, hput, hsid]
    rw [hrun]
    exact ⟨rfl, hcalls, by simp [Cache.Get, Cache.Set]⟩
  · intro hs hmiss hfail hok
    have hput := requestWithRetry_after_failures cfg this "PUT" "gskep"
      "login.logined_h5_user"
      [("unionid", GoValue.string I), ("secret", GoValue.string cfg._USER_LOGIN_SECRET)]
      k w wk wF (some resp) none hd hk2 hfail hok
    have hc := failedAttempts_counts cfg this "PUT" "gskep" "login.logined_h5_user"
      [("unionid", GoValue.string I), ("secret", GoValue.string cfg._USER_LOGIN_SECRET)]
      k w wk hfail
    have hkeep := request_keeps cfg this "PUT" "gskep" "login.logined_h5_user"
      [("unionid", GoValue.string I), ("secret", GoValue.string cfg._USER_LOGIN_SECRET)] wk
    rw [hok] at hkeep
    have hcalls : wF.requestCalls = w.requestCalls + k + 1 := by
      rw [hkeep.2, hc.1]
    have hrun : LoginAsUser cfg this I w = (some (some { this with CustomJWTToken := S }),
        { wF with userLoginCache := wF.userLoginCache.Set I S }) := by
      simp [LoginAsUser, hs, hen, hmiss, Resource.Put, hput, hsid]
    rw [hrun]
    exact ⟨rfl, hcalls, by simp [Cache.Get, Cache.Set]⟩

theorem LoginAs_uncached_witness :
    ((LoginAs demoConfig demoResource "manager" (World.init (timeoutsThenOk 1))).1
        = some (some { demoResource with CustomJWTToken := "tok-123" }) ∧
      (LoginAs demoConfig demoResource "manager" (World.init (timeoutsThenOk 1))).2.requestCalls
        = (World.init (timeoutsThenOk 1)).requestCalls + 1 + 1 ∧
      (LoginAs demoConfig demoResource "manager"
          (World.init (timeoutsThenOk 1))).2.corpLoginCache.Get "manager" = some "tok-123") ∧
    ((LoginAsUser demoConfig demoResource "union-1" (World.init (timeoutsThenOk 1))).1
        = some (some { demoResource with CustomJWTToken := "tok-123" }) ∧
      (LoginAsUser demoConfig demoResource "union-1"
          (World.init (timeoutsThenOk 1))).2.requestCalls
        = (World.init (timeoutsThenOk 1)).requestCalls + 1 + 1 ∧
      (LoginAsUser demoConfig demoResource "union-1"
          (World.init (timeoutsThenOk 1))).2.userLoginCache.Get "union-1" = some "tok-123") :=
  ⟨(LoginAs_uncached demoConfig demoResource "manager" "tok-123" 1
      (World.init (timeoutsThenOk 1))
      ((failedAttempts demoConfig demoResource "PUT" "gskep" "login.logined_corp_user"
        [("username", GoValue.string "manager"), ("password", GoValue.string "s3cr3t")] 1
        (World.init (timeoutsThenOk 1))).getD (World.init (timeoutsThenOk 1)))
      (request demoConfig demoResource "PUT" "gskep" "login.logined_corp_user"
        [("username", GoValue.string "manager"), ("password", GoValue.string "s3cr3t")]
        ((failedAttempts demoConfig demoResource "PUT" "gskep" "login.logined_corp_user"
          [("username", GoValue.string "manager"), ("password", GoValue.string "s3cr3t")] 1
          (World.init (timeoutsThenOk 1))).getD (World.init (timeoutsThenOk 1)))).2
      { RespData := okBody } rfl (by decide) (by decide) rfl).1 (by decide) rfl rfl rfl,
    (LoginAs_uncached demoConfig demoResource "union-1" "tok-123" 1
      (World.init (timeoutsThenOk 1))
      ((failedAttempts demoConfig demoResource "PUT" "gskep" "login.logined_h5_user"
        [("unionid", GoValue.string "union-1"), ("secret", GoValue.string "u5er")] 1
        (World.init (timeoutsThenOk 1))).getD (World.init (timeoutsThenOk 1)))
      (request demoConfig demoResource "PUT" "gskep" "login.logined_h5_user"
        [("unionid", GoValue.string "union-1"), ("secret", GoValue.string "u5er")]
        ((failedAttempts demoConfig demoResource "PUT" "gskep" "login.logined_h5_user"
          [("unionid", GoValue.string "union-1"), ("secret", GoValue.string "u5er")] 1
          (World.init (timeoutsThenOk 1))).getD (World.init (timeoutsThenOk 1)))).2
      { RespData := okBody } rfl (by decide) (by decide) rfl).2 (by decide) rfl rfl rfl⟩

/-- C8 fails in three ways, each for the identity `manager` without an entry in the
corp cache. Without a platform secret `LoginAs` returns nil and `request` is never
invoked. With the login cache switched off `LoginAs` returns the receiver with the new
token after one call of `request`, and `Get` on the corp cache is still a miss. With
both set and a first attempt that times out, `LoginAs` returns the receiver with the
new token after two calls of `request`, both sent. -/
theorem LoginAs_uncached_counterexample :
    (World.init (alwaysBody okBody)).corpLoginCache.Get "manager" = none ∧
    ((LoginAs noSecretConfig demoResource "manager" (World.init (alwaysBody okBody))).1
        = some none ∧
      (LoginAs noSecretConfig demoResource "manager"
          (World.init (alwaysBody okBody))).2.requestCalls = 0) ∧
    ((LoginAs noCacheConfig demoResource "manager" (World.init (alwaysBody okBody))).1
        = some (some { demoResource with CustomJWTToken := "tok-123" }) ∧
      (LoginAs noCacheConfig demoResource "manager"
          (World.init (alwaysBody okBody))).2.requestCalls = 1 ∧
      (LoginAs noCacheConfig demoResource "manager"
          (World.init (alwaysBody okBody))).2.corpLoginCache.Get "manager" = none) ∧
    (World.init (timeoutsThenOk 1)).corpLoginCache.Get "manager" = none ∧
    ((LoginAs demoConfig demoResource "manager" (World.init (timeoutsThenOk 1))).1
        = some (some { demoResource with CustomJWTToken := "tok-123" }) ∧
      (LoginAs demoConfig demoResource "manager"
          (World.init (timeoutsThenOk 1))).2.requestCalls = 2 ∧
      (LoginAs demoConfig demoResource "manager"
          (World.init (timeoutsThenOk 1))).2.sent.length = 2) :=
  ⟨rfl, ⟨rfl, rfl⟩, ⟨rfl, rfl, rfl⟩, rfl, ⟨rfl, rfl, rfl⟩⟩

/-! ## The URL -/

theorem lastIndexFrom_absent (c : Char) :
    ∀ (xs : List Char) (i : Nat) (found : Int), c ∉ xs → lastIndexFrom c xs i found = found := by
  intro xs
  induction xs with
  | nil =>
    intro i found _
    rfl
  | cons x xs ih =>
    intro i found h
    have hx : x ≠ c := fun e => h (e ▸ List.mem_cons_self x xs)
    have hxs : c ∉ xs := fun e => h (List.mem_cons_of_mem x e)
    rw [lastIndexFrom, if_neg hx]
    exact ih (i + 1) found hxs

theorem lastIndexFrom_last (c : Char) (after : List Char) (h : c ∉ after) :
    ∀ (before : List Char) (i : Nat) (found : Int),
      lastIndexFrom c (before ++ c :: after) i found = ((i + before.length : Nat) : Int) := by
  intro before
  induction before with
  | nil =>
    intro i found
    rw [List.nil_append, lastIndexFrom, if_pos rfl, lastIndexFrom_absent c after (i + 1) _ h]
    simp
  | cons x xs ih =>
    intro i found
    rw [List.cons_append, lastIndexFrom, ih (i + 1)]
    simp only [List.length_cons]
    congr 1
    omega

/-- A string with a dot is cut at its last dot. -/
theorem splitResource_dot (ns action : String) (h : '.' ∉ action.data) :
    splitResource (ns ++ "." ++ action) = some (ns ++ "/" ++ action) := by
  have hdata : (ns ++ "." ++ action).data = ns.data ++ '.' :: action.data := by
    simp [String.data_append]
  have hpos : LastIndexByte (ns ++ "." ++ action) '.' = (ns.data.length : Int) := by
    unfold LastIndexByte
    rw [hdata, lastIndexFrom_last '.' action.data h ns.data 0 (-1)]
    simp
  have hlen : (ns ++ "." ++ action).length = ns.data.length + (action.data.length + 1) := by
    show (ns ++ "." ++ action).data.length = _
    rw [hdata]
    simp
  have hto : sliceTo (ns ++ "." ++ action) (ns.data.length : Int) = some ns := by
    unfold sliceTo
    rw [if_pos ⟨by omega, by rw [hlen]; omega⟩, hdata]
    simp
  have hfrom : sliceFrom (ns ++ "." ++ action) ((ns.data.length : Int) + 1) = some action := by
    unfold sliceFrom
    rw [if_pos ⟨by omega, by rw [hlen]; omega⟩, hdata]
    have h1 : ((ns.data.length : Int) + 1).toNat = ns.data.length + 1 := by omega
    rw [h1]
    have h2 : List.drop (ns.data.length + 1) (ns.data ++ '.' :: action.data) = action.data := by
      have e : ns.data ++ '.' :: action.data = (ns.data ++ ['.']) ++ action.data := by simp
      rw [e]
      exact List.drop_left' (by simp)
    rw [h2]
  unfold splitResource
  simp only [hpos, hto, hfrom]

/-- A string without a dot makes the first slice expression panic. -/
theorem splitResource_no_dot (resource : String) (h : '.' ∉ resource.data) :
    LastIndexByte resource '.' = -1 ∧ sliceTo resource (-1) = none ∧
      splitResource resource = none := by
  have hpos : LastIndexByte resource '.' = -1 := by
    unfold LastIndexByte
    exact lastIndexFrom_absent '.' resource.data 0 (-1) h
  have hto : sliceTo resource (-1) = none := by
    unfold sliceTo
    rw [if_neg]
    omega
  refine ⟨hpos, hto, ?_⟩
  unfold splitResource
  simp only [hpos, hto]

/-- Every string with a dot is some `ns`, a dot, and an `action` without a dot. -/
theorem exists_last_dot (resource : String) (h : '.' ∈ resource.data) :
    ∃ ns action : String, resource = ns ++ "." ++ action ∧ '.' ∉ action.data := by
  have hrev : '.' ∈ resource.data.reverse := List.mem_reverse.mpr h
  obtain ⟨as, bs, heq, hnot⟩ := List.eq_append_cons_of_mem hrev
  refine ⟨String.mk bs.reverse, String.mk as.reverse, ?_, ?_⟩
  · apply String.ext
    have h2 : resource.data = (as ++ '.' :: bs).reverse := by
      rw [← heq, List.reverse_reverse]
    rw [h2]
    simp [String.data_append]
  · simpa using hnot

theorem handleJWTError_logs (cfg : Config) (this : Resource) (errCode : String) (w : World) :
    (handleJWTError cfg this errCode w).built = w.built ∧
      (handleJWTError cfg this errCode w).sent = w.sent := by
  unfold handleJWTError
  split_ifs <;> exact ⟨rfl, rfl⟩

theorem requestSend_built (cfg : Config) (this : Resource) (req : HttpRequest) (w : World) :
    (requestSend cfg this req w).2.built = w.built := by
  unfold requestSend
  dsimp only
  split
  · rfl
  · rfl
  · rfl
  · split
    · rfl
    · rfl
    · split
      · rfl
      · exact (handleJWTError_logs cfg this ‹Json›.MustString
          { w with sent := w.sent ++ [req] }).1

/-- From the call of `http.NewRequest` on, `request` logs exactly the one build. -/
theorem requestBuilt_built (cfg : Config) (this : Resource) (method : String)
    (built : String × Url × Option Values) (w : World) :
    (requestBuilt cfg this method built w).2.built = w.built ++ [built] := by
  unfold requestBuilt
  dsimp only
  split
  · rfl
  · split
    · rfl
    · unfold requestTraced
      split
      · exact requestSend_built cfg this _ { w with built := w.built ++ [built] }
      · exact requestSend_built cfg this _
          { w with built := w.built ++ [built], spanTags := w.spanTags ++
              [SpanTag.spanKindRPCClient, SpanTag.httpUrl built.2.1, SpanTag.httpMethod method] }

/-- When the resource can be cut, one call of `request` builds exactly one request,
the one `buildRequest` describes. -/
theorem request_built (cfg : Config) (this : Resource) (method service resource cut : String)
    (data : Map) (w : World) (h : splitResource resource = some cut) :
    (request cfg this method service resource data w).2.built
      = w.built ++ [buildRequest cfg method (targetService cfg service) cut data] := by
  unfold request
  simp only [h]
  exact requestBuilt_built cfg this method _ { w with requestCalls := w.requestCalls + 1 }

theorem Values.mem_pairs (vs : Values) (k v : String) (h : (k, [v]) ∈ vs) :
    (k, v) ∈ Values.pairs vs := by
  unfold Values.pairs
  rw [List.mem_flatMap]
  exact ⟨(k, [v]), h, by simp⟩

theorem Values.mem_Set_of_ne (vs : Values) (key value : String) (p : String × List String)
    (hp : p ∈ vs) (hne : p.1 ≠ key) : p ∈ Values.Set vs key value := by
  unfold Values.Set
  exact List.mem_cons_of_mem _ (List.mem_filter.mpr ⟨hp, by simpa using hne⟩)

/-- The parameter loop keeps an entry whose key no parameter has. -/
theorem setAll_mem (p : String × List String) :
    ∀ (data : Map) (vs : Values), p ∈ vs → (∀ kv ∈ data, kv.1 ≠ p.1) → p ∈ setAll vs data := by
  intro data
  induction data with
  | nil =>
    intro vs hp _
    exact hp
  | cons kv rest ih =>
    intro vs hp hkeys
    have h1 : kv.1 ≠ p.1 := hkeys kv (List.mem_cons_self kv rest)
    have h2 : ∀ x ∈ rest, x.1 ≠ p.1 := fun x hx => hkeys x (List.mem_cons_of_mem kv hx)
    show p ∈ setAll (Values.Set vs kv.1 (formatValue kv.2)) rest
    exact ih _ (Values.mem_Set_of_ne vs kv.1 _ p hp (Ne.symm h1)) h2

/-- The query of the request `buildRequest` describes holds both housekeeping pairs,
for a verb other than GET and for a GET whose parameters use neither key. -/
theorem buildRequest_housekeeping (cfg : Config) (method service resource : String) (data : Map)
    (h : method ≠ "GET" ∨ ∀ kv ∈ data, kv.1 ≠ "_v" ∧ kv.1 ≠ "__source_service") :
    ("_v", "1") ∈ (buildRequest cfg method service resource data).2.1.query.pairs ∧
      ("__source_service", cfg._SERVICE_NAME)
        ∈ (buildRequest cfg method service resource data).2.1.query.pairs := by
  unfold buildRequest
  by_cases hget : method = "GET"
  · have hkeys : ∀ kv ∈ data, kv.1 ≠ "_v" ∧ kv.1 ≠ "__source_service" := by
      rcases h with h | h
      · exact absurd hget h
      · exact h
    simp only [hget, if_true]
    constructor
    · apply Values.mem_pairs
      exact setAll_mem ("_v", ["1"]) data _ (by simp) (fun kv hkv => (hkeys kv hkv).1)
    · apply Values.mem_pairs
      exact setAll_mem ("__source_service", [cfg._SERVICE_NAME]) data _ (by simp)
        (fun kv hkv => (hkeys kv hkv).2)
  · simp only [hget, if_false]
    constructor
    · apply Values.mem_pairs
      split_ifs
      · exact Values.mem_Set_of_ne _ _ _ _ (by simp) (by decide)
      · exact Values.mem_Set_of_ne _ _ _ _ (by simp) (by decide)
      · simp
    · apply Values.mem_pairs
      have hne : ("__source_service", [cfg._SERVICE_NAME]).1 ≠ "_method" := by
        show "__source_service" ≠ "_method"
        decide
      split_ifs
      · exact Values.mem_Set_of_ne _ _ _ _ (by simp) hne
      · exact Values.mem_Set_of_ne _ _ _ _ (by simp) hne
      · simp

theorem upperhex_getD_safe (n : Nat) :
    upperhex.getD n '0' ≠ '&' ∧ upperhex.getD n '0' ≠ '#' := by
  unfold upperhex
  rcases Nat.lt_or_ge n 16 with h | h
  · interval_cases n <;> exact ⟨by decide, by decide⟩
  · rw [List.getD_eq_default _ _ (by simpa using h)]
    exact ⟨by decide, by decide⟩

/-- What `QueryEscape` writes for a character holds neither `&` nor `#`. -/
theorem escapeChar_safe (c x : Char) (h : x ∈ escapeChar c) : x ≠ '&' ∧ x ≠ '#' := by
  unfold escapeChar at h
  split_ifs at h with hesc hsp
  · rw [List.mem_singleton] at h
    subst h
    exact ⟨by decide, by decide⟩
  · rw [List.mem_flatMap] at h
    obtain ⟨b, _, hx⟩ := h
    simp only [List.mem_cons, List.mem_singleton, List.not_mem_nil, or_false] at hx
    rcases hx with hx | hx | hx
    · subst hx
      exact ⟨by decide, by decide⟩
    · rw [hx]
      exact upperhex_getD_safe _
    · rw [hx]
      exact upperhex_getD_safe _
  · rw [List.mem_singleton] at h
    subst h
    constructor
    · rintro rfl
      exact hesc (by decide)
    · rintro rfl
      exact hesc (by decide)

theorem QueryEscape_safe (s : String) (x : Char) (h : x ∈ (QueryEscape s).data) :
    x ≠ '&' ∧ x ≠ '#' := by
  unfold QueryEscape at h
  rw [List.mem_flatMap] at h
  obtain ⟨c, _, hx⟩ := h
  exact escapeChar_safe c x hx

theorem mem_intercalate (x : Char) (sep : List Char) (ls : List (List Char))
    (h : x ∈ sep.intercalate ls) : x ∈ sep ∨ ∃ l ∈ ls, x ∈ l := by
  induction ls with
  | nil => simp [List.intercalate] at h
  | cons a rest ih =>
    cases rest with
    | nil =>
      simp [List.intercalate] at h
      exact Or.inr ⟨a, by simp, h⟩
    | cons b r =>
      simp only [List.intercalate, List.intersperse, List.flatten, List.mem_append] at h ih
      rcases h with h | h | h
      · exact Or.inr ⟨a, by simp, h⟩
      · exact Or.inl h
      · rcases ih h with h1 | ⟨l, hl, hx⟩
        · exact Or.inl h1
        · exact Or.inr ⟨l, List.mem_cons_of_mem _ hl, hx⟩

/-- Every component `Encode` writes holds neither `&` nor `#`. -/
theorem encoded_pair_safe (kv : String × String) (x : Char)
    (h : x ∈ (QueryEscape kv.1).data ++ '=' :: (QueryEscape kv.2).data) :
    x ≠ '&' ∧ x ≠ '#' := by
  rw [List.mem_append, List.mem_cons] at h
  rcases h with h | h | h
  · exact QueryEscape_safe kv.1 x h
  · subst h
    exact ⟨by decide, by decide⟩
  · exact QueryEscape_safe kv.2 x h

/-- The text `Encode` writes has no `#` in it. -/
theorem Values.Encode_no_fragment (vs : Values) : '#' ∉ (Values.Encode vs).data := by
  intro h
  unfold Values.Encode at h
  rcases mem_intercalate _ _ _ h with h1 | ⟨l, hl, hx⟩
  · exact absurd h1 (by decide)
  · rw [List.mem_map] at hl
    obtain ⟨kv, _, rfl⟩ := hl
    exact (encoded_pair_safe kv '#' hx).2 rfl

/-- A pair of the `url.Values` is a component of the text `Encode` writes. -/
theorem Values.Encode_component (vs : Values) (k v : String) (h : (k, v) ∈ Values.pairs vs) :
    QueryEscape k ++ "=" ++ QueryEscape v ∈ queryComponents (Values.Encode vs) := by
  have hsorted : (k, v) ∈ Values.pairs
      (vs.insertionSort (fun a b => keyLe a.1.data b.1.data = true)) := by
    unfold Values.pairs at h ⊢
    rw [List.mem_flatMap] at h ⊢
    obtain ⟨p, hp, hkv⟩ := h
    exact ⟨p, (List.mem_insertionSort _).mpr hp, hkv⟩
  unfold queryComponents Values.Encode
  rw [List.splitOn_intercalate]
  · rw [List.mem_map]
    refine ⟨(QueryEscape k).data ++ '=' :: (QueryEscape v).data, ?_, ?_⟩
    · rw [List.mem_map]
      exact ⟨(k, v), hsorted, rfl⟩
    · apply String.ext
      simp [String.data_append]
  · intro l hl hamp
    rw [List.mem_map] at hl
    obtain ⟨kv, _, rfl⟩ := hl
    exact (encoded_pair_safe kv '&' hamp).1 rfl
  · intro hnil
    rw [List.map_eq_nil_iff] at hnil
    rw [hnil] at hsorted
    exact absurd hsorted (List.not_mem_nil _)

/-- The query `url.Parse` finds in `apiUrl` is the text `Encode` wrote, when the part
before it has neither `#` nor `?`. -/
theorem rawQueryOf_text (u : Url) (h : Plain u.base) :
    rawQueryOf u.text = Values.Encode u.query := by
  have hdata : u.text.data = u.base.data ++ '?' :: (Values.Encode u.query).data := by
    simp [Url.text, String.data_append]
  have hnofrag : '#' ∉ u.base.data ++ '?' :: (Values.Encode u.query).data := by
    intro hm
    rw [List.mem_append, List.mem_cons] at hm
    rcases hm with hm | hm | hm
    · exact h.1 hm
    · exact absurd hm (by decide)
    · exact Values.Encode_no_fragment u.query hm
  have htake : ∀ l : List Char, '#' ∉ l →
      List.takeWhile (fun c => decide (c ≠ '#')) l = l := by
    intro l hl
    rw [List.takeWhile_eq_self_iff]
    intro x hx
    simp only [ne_eq, decide_eq_true_eq]
    rintro rfl
    exact hl hx
  have hdrop : ∀ base enc : List Char, '?' ∉ base →
      (List.dropWhile (fun c => decide (c ≠ '?')) (base ++ '?' :: enc)).drop 1 = enc := by
    intro base enc
    induction base with
    | nil =>
      intro _
      simp [List.dropWhile]
    | cons a r ih =>
      intro hb
      have ha : a ≠ '?' := fun e => hb (e ▸ List.mem_cons_self _ _)
      have hr : '?' ∉ r := fun e => hb (List.mem_cons_of_mem _ e)
      simp [List.dropWhile, ha]
      simpa using ih hr
  unfold rawQueryOf
  rw [hdata, htake _ hnofrag, hdrop _ _ h.2]

theorem Plain.append {a b : String} (ha : Plain a) (hb : Plain b) : Plain (a ++ b) := by
  unfold Plain at *
  simp only [String.data_append, List.mem_append, not_or]
  exact ⟨⟨ha.1, hb.1⟩, ⟨ha.2, hb.2⟩⟩

theorem Plain.of_append {a b : String} (h : Plain (a ++ b)) : Plain a ∧ Plain b := by
  unfold Plain at *
  simp only [String.data_append, List.mem_append, not_or] at h
  exact ⟨⟨h.1.1, h.2.1⟩, ⟨h.1.2, h.2.2⟩⟩

/-- The text `request` writes before the `?` has neither `#` nor `?` when the host,
the service and the resource have none. -/
theorem buildRequest_base_plain (cfg : Config) (method service ns action : String) (data : Map)
    (hhost : Plain cfg.API_SERVER_HOST) (hservice : Plain service)
    (hres : Plain (ns ++ "." ++ action)) :
    Plain (buildRequest cfg method (targetService cfg service)
      (ns ++ "/" ++ action) data).2.1.base := by
  have hlit1 : Plain "http://" := ⟨by decide, by decide⟩
  have hlit2 : Plain "/" := ⟨by decide, by decide⟩
  have hlit3 : Plain "peanut_pure" := ⟨by decide, by decide⟩
  have hns : Plain ns := (Plain.of_append (Plain.of_append hres).1).1
  have hact : Plain action := (Plain.of_append hres).2
  have hsvc : Plain (targetService cfg service) := by
    unfold targetService
    split_ifs
    · exact hlit3
    · exact hservice
  have hbase : Plain ("http://" ++ cfg.API_SERVER_HOST ++ "/" ++ targetService cfg service
      ++ "/" ++ (ns ++ "/" ++ action) ++ "/") :=
    ((((((hlit1.append hhost).append hlit2).append hsvc).append hlit2).append
      ((hns.append hlit2).append hact)).append hlit2)
  unfold buildRequest
  split_ifs <;> exact hbase

/-- C9, as the code has it: when the API host, the service and the resource have
neither `#` nor `?` in them and the resource has a dot, one call of `request` builds
one URL, and the query `url.Parse` finds in that string has the components `_v=1` and
`__source_service=<QueryEscape(_SERVICE_NAME)>`, for every verb other than GET
whatever keys `data` has, and for GET when no key of `data` is `_v` or
`__source_service`. -/
theorem request_housekeeping (cfg : Config) (this : Resource)
    (method service resource : String) (data : Map) (w : World)
    (hhost : Plain cfg.API_SERVER_HOST) (hservice : Plain service) (hres : Plain resource)
    (hdot : '.' ∈ resource.data)
    (h : method ≠ "GET" ∨ ∀ kv ∈ data, kv.1 ≠ "_v" ∧ kv.1 ≠ "__source_service") :
    ∃ b : String × Url × Option Values,
      (request cfg this method service resource data w).2.built = w.built ++ [b] ∧
      (("_v", "1") ∈ b.2.1.query.pairs ∧
        ("__source_service", cfg._SERVICE_NAME) ∈ b.2.1.query.pairs) ∧
      "_v=1" ∈ queryComponents (rawQueryOf b.2.1.text) ∧
      "__source_service=" ++ QueryEscape cfg._SERVICE_NAME
        ∈ queryComponents (rawQueryOf b.2.1.text) := by
  obtain ⟨ns, action, hcutres, hact⟩ := exists_last_dot resource hdot
  subst hcutres
  have hcut := splitResource_dot ns action hact
  have hpairs := buildRequest_housekeeping cfg method (targetService cfg service)
    (ns ++ "/" ++ action) data h
  have hplain := buildRequest_base_plain cfg method service ns action data hhost hservice hres
  have hraw := rawQueryOf_text _ hplain
  refine ⟨_, request_built cfg this method service _ _ data w hcut, hpairs, ?_, ?_⟩
  · rw [hraw]
    have hc := Values.Encode_component _ "_v" "1" hpairs.1
    have he : QueryEscape "_v" ++ "=" ++ QueryEscape "1" = "_v=1" := by decide
    rw [he] at hc
    exact hc
  · rw [hraw]
    have hc := Values.Encode_component _ "__source_service" cfg._SERVICE_NAME hpairs.2
    have he : QueryEscape "__source_service" ++ "=" = "__source_service=" := by decide
    rw [he] at hc
    exact hc

theorem request_housekeeping_witness :
    (Plain demoConfig.API_SERVER_HOST ∧ Plain "shop" ∧ Plain "order.list" ∧
      '.' ∈ "order.list".data ∧
      ("GET" ≠ "GET" ∨
        ∀ kv ∈ [("page", GoValue.int 2)], kv.1 ≠ "_v" ∧ kv.1 ≠ "__source_service")) ∧
    ∃ b : String × Url × Option Values,
      (request demoConfig demoResource "GET" "shop" "order.list" [("page", GoValue.int 2)]
          (World.init (alwaysBody okBody))).2.built
        = (World.init (alwaysBody okBody)).built ++ [b] ∧
      (("_v", "1") ∈ b.2.1.query.pairs ∧
        ("__source_service", demoConfig._SERVICE_NAME) ∈ b.2.1.query.pairs) ∧
      "_v=1" ∈ queryComponents (rawQueryOf b.2.1.text) ∧
      "__source_service=" ++ QueryEscape demoConfig._SERVICE_NAME
        ∈ queryComponents (rawQueryOf b.2.1.text) :=
  have hhost : Plain demoConfig.API_SERVER_HOST := ⟨by decide, by decide⟩
  have hservice : Plain "shop" := ⟨by decide, by decide⟩
  have hres : Plain "order.list" := ⟨by decide, by decide⟩
  have hdot : '.' ∈ "order.list".data := by decide
  have hkeys : "GET" ≠ "GET" ∨
      ∀ kv ∈ [("page", GoValue.int 2)], kv.1 ≠ "_v" ∧ kv.1 ≠ "__source_service" :=
    Or.inr (by
      intro kv hkv
      rw [List.mem_singleton] at hkv
      subst hkv
      exact ⟨by decide, by decide⟩)
  ⟨⟨hhost, hservice, hres, hdot, hkeys⟩,
    request_housekeeping demoConfig demoResource "GET" "shop" "order.list"
      [("page", GoValue.int 2)] (World.init (alwaysBody okBody)) hhost hservice hres hdot hkeys⟩

/-- C9 fails in two ways. For a GET whose parameters use the housekeeping keys: with
`data = {"_v": 2, "__source_service": "spoof"}` the one URL built has the query pairs
`__source_service=spoof` and `_v=2`, and neither `_v=1` nor
`__source_service=orders`. For a resource with a `#` or a `?` in it, whatever the
verb: a PUT of `order.li#st` builds a URL whose query, as `url.Parse` finds it, is
empty, and a PUT of `order.list?x` one whose query has no component
`__source_service=orders`. -/
theorem request_housekeeping_counterexample :
    ((request demoConfig demoResource "GET" "shop" "order.list"
        [("_v", GoValue.int 2), ("__source_service", GoValue.string "spoof")]
        (World.init (alwaysBody okBody))).2.built.map (fun b => b.2.1.query.pairs)
      = [[("__source_service", "spoof"), ("_v", "2")]] ∧
    ("_v", "1") ∉ [("__source_service", "spoof"), ("_v", "2")] ∧
    ("__source_service", demoConfig._SERVICE_NAME)
      ∉ [("__source_service", "spoof"), ("_v", "2")]) ∧
    ((request demoConfig demoResource "GET" "shop" "order.list"
        [("_v", GoValue.int 2), ("__source_service", GoValue.string "spoof")]
        (World.init (alwaysBody okBody))).2.built.map
          (fun b => queryComponents (rawQueryOf b.2.1.text))
      = [["__source_service=spoof", "_v=2"]]) ∧
    ((request demoConfig demoResource "PUT" "shop" "order.li#st" []
        (World.init (alwaysBody okBody))).2.built.map
          (fun b => (b.2.1.text, rawQueryOf b.2.1.text))
      = [("http://api.local/shop/order/li#st/?__source_service=orders&_method=put&_v=1",
          "")]) ∧
    ((request demoConfig demoResource "PUT" "shop" "order.list?x" []
        (World.init (alwaysBody okBody))).2.built.map
          (fun b => queryComponents (rawQueryOf b.2.1.text))
      = [["x/?__source_service=orders", "_method=put", "_v=1"]] ∧
    "__source_service=orders" ∉ ["x/?__source_service=orders", "_method=put", "_v=1"]) :=
  ⟨⟨by rfl, by decide, by decide⟩, by decide, by decide, by decide, by decide⟩

/-- C10: every resource string with a dot is `ns`, a dot and an `action` without a
dot; for such a string one call of `request` builds the one URL whose text before the
query is `http://<host>/<service>/<ns>/<action>/`, the service being the one named in
the call or `peanut_pure` under the switch of lines 81 to 84. For a resource string
without a dot `LastIndexByte` is -1, the slice `resource[:-1]` panics, and `request`
panics having counted the call and nothing else: nothing is built, nothing sent. -/
theorem request_target_url (cfg : Config) (this : Resource) (method service : String)
    (data : Map) (w : World) :
    (∀ resource : String, '.' ∈ resource.data →
      ∃ ns action : String, resource = ns ++ "." ++ action ∧ '.' ∉ action.data) ∧
    (∀ ns action : String, '.' ∉ action.data →
      ∃ b : String × Url × Option Values,
        (request cfg this method service (ns ++ "." ++ action) data w).2.built
          = w.built ++ [b] ∧
        b.2.1.base = "http://" ++ cfg.API_SERVER_HOST ++ "/" ++ targetService cfg service
          ++ "/" ++ ns ++ "/" ++ action ++ "/") ∧
    (∀ resource : String, '.' ∉ resource.data →
      LastIndexByte resource '.' = -1 ∧ sliceTo resource (-1) = none ∧
      request cfg this method service resource data w
        = (none, { w with requestCalls := w.requestCalls + 1 })) := by
  refine ⟨exists_last_dot, ?_, ?_⟩
  · intro ns action hact
    refine ⟨_, request_built cfg this method service _ _ data w
      (splitResource_dot ns action hact), ?_⟩
    unfold buildRequest
    split_ifs <;> simp [String.append_assoc]
  · intro resource hno
    have h := splitResource_no_dot resource hno
    refine ⟨h.1, h.2.1, ?_⟩
    unfold request
    simp only [h.2.2]

theorem request_target_url_witness :
    ('.' ∉ "list".data ∧ '.' ∉ "orderlist".data) ∧
    (∃ b : String × Url × Option Values,
      (request demoConfig demoResource "GET" "shop" ("shop.order" ++ "." ++ "list") []
          (World.init (alwaysBody okBody))).2.built
        = (World.init (alwaysBody okBody)).built ++ [b] ∧
      b.2.1.base = "http://" ++ demoConfig.API_SERVER_HOST ++ "/"
        ++ targetService demoConfig "shop" ++ "/" ++ "shop.order" ++ "/" ++ "list" ++ "/") ∧
    (LastIndexByte "orderlist" '.' = -1 ∧ sliceTo "orderlist" (-1) = none ∧
      request demoConfig demoResource "GET" "shop" "orderlist" []
          (World.init (alwaysBody okBody))
        = (none, { World.init (alwaysBody okBody) with
            requestCalls := (World.init (alwaysBody okBody)).requestCalls + 1 })) :=
  have h1 : '.' ∉ "list".data := by decide
  have h2 : '.' ∉ "orderlist".data := by decide
  ⟨⟨h1, h2⟩,
    (request_target_url demoConfig demoResource "GET" "shop" []
      (World.init (alwaysBody okBody))).2.1 "shop.order" "list" h1,
    (request_target_url demoConfig demoResource "GET" "shop" []
      (World.init (alwaysBody okBody))).2.2 "orderlist" h2⟩

end Vanilla
